import Mathlib

/-!
# restful-contrib: the gzap access-logging and panic-recovery filters

A shallow embedding of `gzap/gzap.go`, followed by `authj/authj.go`,
`traceid/traceid.go` and the level methods of `gormzap/gz.go`.  The filters
are stateful Go code; here every piece of mutable state they touch (the request, the
response, the server's writer, the `strings.Builder` duplicates, the body-capture
toggle, the clock, the calls made to the logger and to the field pool) is a field of
`World`, and each Go function becomes a function on `World`.

Conventions.
* A Go `string` and a Go `[]byte` are both a Lean `String`; one character stands for one
  byte, so `len` is `String.length`.
* A Go `int` is an `Int`; the code only compares and stores these numbers.
* A downstream chain is a function from `World` to `World` together with the value it
  panicked with, if it panicked.
-/

namespace gzap

/-! ## Go values -/

/-- Go `error` values, as far as the filters tell them apart: every value of the type is
a non-nil interface value on which `Error()` returns.  The nil pointer
`(*net.OpError)(nil)` is one of them (its `Error()` is "<nil>"); a nil
`*os.SyscallError` and an error with a nil `Err`, on which `Error()` itself
dereferences nil, are not in the type. -/
inductive GoError where
  /-- An error made by `errors.New`. -/
  | errorString (s : String)
  /-- The nil pointer `(*net.OpError)(nil)` held in an interface. -/
  | nilOpError
  /-- The type `*os.SyscallError`. -/
  | SyscallError (Syscall : String) (Err : GoError)
  /-- The type `*net.OpError`; `Source` and `Addr` are the printed addresses when present. -/
  | OpError (Op : String) (Net : String) (Source : Option String) (Addr : Option String)
      (Err : GoError)
  /-- Any other error type that wraps an error, with its own message. -/
  | wrapError (msg : String) (err : GoError)
  deriving DecidableEq, Repr

/-- The method `Error()` of each error type. -/
def GoError.Error : GoError → String
  | .errorString s => s
  | .nilOpError => "<nil>"
  | .SyscallError sc e => sc ++ ": " ++ e.Error
  | .OpError op net src addr e =>
    let s := op
    let s := if net ≠ "" then s ++ " " ++ net else s
    let s := match src with
      | some a => s ++ " " ++ a
      | none => s
    let s := match addr with
      | some a => (if src.isSome then s ++ "->" else s ++ " ") ++ a
      | none => s
    s ++ ": " ++ e.Error
  | .wrapError msg _ => msg

/-- A value a handler can panic with (Go `any`, never nil once recovered). -/
inductive PanicValue where
  | str (s : String)
  | int (n : Int)
  | error (e : GoError)
  deriving DecidableEq, Repr

/-- The type assertion `err.(error)`: `none` is the run-time failure of the assertion. -/
def PanicValue.asError : PanicValue → Option GoError
  | .error e => some e
  | _ => none

/-- List form of `strings.Contains`: does `sub` occur as a contiguous block of `s`. -/
def hasInfix : List Char → List Char → Bool
  | [], sub => sub.isEmpty
  | c :: cs, sub => sub.isPrefixOf (c :: cs) || hasInfix cs sub

/-- Go `strings.Contains`. -/
def strings.Contains (s substr : String) : Bool := hasInfix s.data substr.data

/-- Go `unicode.ToLower` on the runes whose lower case is an ASCII character: the ASCII
capitals, U+0130 (capital I with a dot above, lowered to i) and U+212A (the Kelvin sign,
lowered to k).  Every other rune outside ASCII lowers to a rune outside ASCII and is
left as it is, which changes no test for an ASCII text. -/
def unicode.ToLower (c : Char) : Char :=
  if c = Char.ofNat 0x212A then 'k'
  else if c = Char.ofNat 0x0130 then 'i'
  else c.toLower

/-- Go `len` on a string or a byte slice holding text: the number of bytes of its UTF-8
encoding. -/
def len (s : String) : Nat := s.utf8ByteSize

/-- Go `strings.ToLower`: every rune lowered by `unicode.ToLower`. -/
def strings.ToLower (s : String) : String := ⟨s.data.map unicode.ToLower⟩

/-! ## zap -/

/-- The levels of `zapcore.Level`. -/
inductive Level where
  | DebugLevel
  | InfoLevel
  | WarnLevel
  | ErrorLevel
  | DPanicLevel
  | PanicLevel
  | FatalLevel
  deriving DecidableEq, Repr

/-- What a `zap.Field` carries. -/
inductive FieldValue where
  | skip
  | int (n : Int)
  | string (s : String)
  | duration (d : Int)
  | byteString (b : String)
  | any (v : PanicValue)
  | error (e : GoError)
  deriving DecidableEq, Repr

/-- A `zap.Field`: a key and a value. -/
structure Field where
  Key : String
  Value : FieldValue
  deriving DecidableEq, Repr

def zap.Skip : Field := ⟨"", .skip⟩
def zap.Duration (key : String) (d : Int) : Field := ⟨key, .duration d⟩
def zap.ByteString (key : String) (b : String) : Field := ⟨key, .byteString b⟩
def zap.Any (key : String) (v : PanicValue) : Field := ⟨key, .any v⟩
/-- The field `zap.Error(err)` for a non-nil `err`: key "error". -/
def zap.Error (e : GoError) : Field := ⟨"error", .error e⟩
def zap.Int (key : String) (n : Int) : Field := ⟨key, .int n⟩
def zap.String (key : String) (s : String) : Field := ⟨key, .string s⟩

/-- One call to the logger sink: level, message, ordered fields. -/
structure Entry where
  Level : Level
  Message : String
  Fields : List Field
  deriving DecidableEq, Repr

/-- The calls the filters make to their collaborators, in the order they happen. -/
inductive Event where
  | log (e : Entry)
  | poolGet
  | poolPut
  deriving DecidableEq, Repr

/-- The entries of a trace, in order. -/
def entries : List Event → List Entry
  | [] => []
  | .log e :: t => e :: entries t
  | _ :: t => entries t

/-! ## The request, the response and the world -/

/-- A call received by the server's own `http.ResponseWriter`. -/
inductive WriterCall where
  | WriteHeader (status : Int)
  | Write (b : String)
  deriving DecidableEq, Repr

/-- The value of `resp.ResponseWriter`: the server's writer, possibly wrapped in
`bodyWriter`s, each naming its `dupBody` builder by its address. -/
inductive ResponseWriter where
  | server
  | bodyWriter (ResponseWriter : ResponseWriter) (dupBody : Nat)
  deriving DecidableEq, Repr

/-- A request body stream: reading it yields `data` and then end of file, or the error
`err` when there is one. -/
structure Body where
  data : String
  err : Option GoError
  closed : Bool
  deriving DecidableEq, Repr

/-- The matched route of a request. -/
structure Route where
  Path : String
  Doc : String
  deriving DecidableEq, Repr

/-- The fields of `*restful.Request` (and of the `*http.Request` in it) the filters use. -/
structure Request where
  Method : String
  Path : String
  RawQuery : String
  RemoteAddr : String
  Header : List (String × String)
  Body : Body
  SelectedRoute : Option Route
  /-- The string stored in the request context under the key `ctxAuthKey{}` of package
  authj, when there is one. -/
  ctxAuth : Option String := none
  /-- The string stored in the request context under the key `ctxTraceIdKey{}` of
  package traceid, when there is one. -/
  ctxTraceId : Option String := none
  deriving DecidableEq, Repr

/-- The fields of `*restful.Response`. -/
structure Response where
  ResponseWriter : ResponseWriter
  statusCode : Int
  contentLength : Int
  err : Option GoError
  deriving DecidableEq, Repr

/-- A call received by the field pool, with the buffer it handed out or took back.  A
buffer is named by the number of the acquisition that handed it out. -/
inductive PoolCall where
  | Get (fc : Nat)
  | Put (fc : Nat)
  deriving DecidableEq, Repr

/-- Modelled from the spec: the buffer type `FieldContainer` of package `internal/pool`,
which is not among the sources; the filters only use its `Fields`.  Section 3: a
reusable container owning the storage of one field list.  `id` names the buffer. -/
structure FieldContainer where
  id : Nat
  Fields : List Field
  deriving DecidableEq, Repr

/-- Everything the filters and the downstream chain can read or change. -/
structure World where
  req : Request
  resp : Response
  /-- The calls the server's writer has received. -/
  server : List WriterCall
  /-- The content of each `strings.Builder`, by address. -/
  builders : Nat → String
  /-- The address the next `&strings.Builder{}` gets. -/
  nextBuilder : Nat
  /-- The value of the `atomic.Bool` that `cfg.enableBody` points to. -/
  enableBody : Bool
  /-- The monotonic clock. -/
  clock : Int
  /-- The calls made so far to the logger and to the field pool. -/
  trace : List Event
  /-- The calls the field pool has received so far, each with its buffer. -/
  pool : List PoolCall := []
  /-- The header map `resp.ResponseWriter.Header()` of the server's writer. -/
  respHeader : List (String × String) := []

/-- The downstream chain `chain.ProcessFilter(req, resp)`: the world it leaves and the
value it panicked with, if any. -/
abbrev Chain := World → World × Option PanicValue

/-- The standard-library functions and the server's writer, whose results the filters
only pass on. -/
structure Lib where
  /-- The call `httputil.DumpRequest(req, body)`. -/
  DumpRequest : Request → Bool → String
  /-- The call `debug.Stack()`. -/
  Stack : String
  /-- The call `mime.ParseMediaType(v)`; `none` is a non-nil error. -/
  ParseMediaType : String → Option (String × List (String × String))
  /-- What the server's `Write` returns, given the calls it had before and the bytes. -/
  serverWrite : List WriterCall → String → Int × Option GoError

/-- The call `Header.Get(key)` on canonical keys. -/
def Header.Get (h : List (String × String)) (key : String) : String :=
  match h.find? (fun kv => kv.1 == key) with
  | some kv => kv.2
  | none => ""

/-- The call `strings.Builder.Write(b)` on the builder at address `d`. -/
def Builder.Write (d : Nat) (b : String) (w : World) : World :=
  { w with builders := fun i => if i = d then w.builders i ++ b else w.builders i }

/-- The allocation `&strings.Builder{}`: a fresh empty builder and its address. -/
def Builder.new (w : World) : World × Nat :=
  ({ w with
      builders := fun i => if i = w.nextBuilder then "" else w.builders i
      nextBuilder := w.nextBuilder + 1 }, w.nextBuilder)

/-- The method `(w *bodyWriter) Write(b)`: `under` is the `Write` of the embedded
`ResponseWriter`. -/
def bodyWriter.Write (under : String → World → World × (Int × Option GoError))
    (dupBody : Nat) (b : String) (w : World) : World × (Int × Option GoError) :=
  under b (Builder.Write dupBody b w)

/-- The method `Write` of whatever `resp.ResponseWriter` holds. -/
def ResponseWriter.Write (lib : Lib) :
    ResponseWriter → String → World → World × (Int × Option GoError)
  | .server, b, w =>
    ({ w with server := w.server ++ [.Write b] }, lib.serverWrite w.server b)
  | .bodyWriter inner d, b, w =>
    bodyWriter.Write (fun b1 w1 => ResponseWriter.Write lib inner b1 w1) d b w

/-- The method `WriteHeader`; `bodyWriter` inherits it from the writer it embeds. -/
def ResponseWriter.WriteHeader : ResponseWriter → Int → World → World
  | .server, n, w => { w with server := w.server ++ [.WriteHeader n] }
  | .bodyWriter inner _, n, w => ResponseWriter.WriteHeader inner n w

/-! ## go-restful: the methods of `*restful.Response` the filters call -/

/-- The method `StatusCode()`: 200 while no status was written. -/
def Response.StatusCode (r : Response) : Int :=
  if r.statusCode = 0 then 200 else r.statusCode

/-- The method `Error()`. -/
def Response.Error (r : Response) : Option GoError := r.err

/-- The method `WriteHeader(httpStatus)`. -/
def Response.WriteHeader (httpStatus : Int) (w : World) : World :=
  let w := { w with resp := { w.resp with statusCode := httpStatus } }
  w.resp.ResponseWriter.WriteHeader httpStatus w

/-- The method `Write(bytes)`. -/
def Response.Write (lib : Lib) (bytes : String) (w : World) :
    World × (Int × Option GoError) :=
  let r := w.resp.ResponseWriter.Write lib bytes w
  ({ r.1 with resp := { r.1.resp with contentLength := r.1.resp.contentLength + r.2.1 } }, r.2)

/-- The method `WriteErrorString(httpStatus, errorReason)`. -/
def Response.WriteErrorString (lib : Lib) (httpStatus : Int) (errorReason : String)
    (w : World) : World × Option GoError :=
  let w := if w.resp.err.isNone then
      { w with resp := { w.resp with err := some (.errorString errorReason) } }
    else w
  let w := Response.WriteHeader httpStatus w
  let r := Response.Write lib errorReason w
  (r.1, r.2.2)

/-- The method `WriteError(httpStatus, err)` for a non-nil `err`. -/
def Response.WriteError (lib : Lib) (httpStatus : Int) (err : GoError) (w : World) :
    World × Option GoError :=
  let w := { w with resp := { w.resp with err := some err } }
  Response.WriteErrorString lib httpStatus err.Error w

/-- The function `io.ReadAll(body)`: the bytes read, the error, and the drained stream. -/
def io.ReadAll (body : Body) : String × Option GoError × Body :=
  (body.data, body.err, { body with data := "" })

/-- The stream `io.NopCloser(bytes.NewBuffer(buf))`. -/
def io.NopCloser (buf : String) : Body := { data := buf, err := none, closed := false }

/-- The call `logger.Log(level, msg, fields...)`. -/
def logger.Log (level : Level) (msg : String) (fields : List Field) (w : World) : World :=
  { w with trace := w.trace ++ [.log ⟨level, msg, fields⟩] }

/-- The call `logger.Error(msg, fields...)`. -/
def logger.Error (msg : String) (fields : List Field) (w : World) : World :=
  logger.Log .ErrorLevel msg fields w

/-- Modelled from the spec: `pool.Get` of package `internal/pool`, which is not among the
sources.  Section 4.1: `acquire` returns a buffer whose field list is empty.  The call
and the buffer handed out are recorded. -/
def pool.Get (w : World) : World × FieldContainer :=
  ({ w with trace := w.trace ++ [.poolGet], pool := w.pool ++ [.Get w.pool.length] },
    { id := w.pool.length, Fields := [] })

/-- Modelled from the spec: `pool.Put(fc)` of package `internal/pool`.  Section 4.1:
`release` clears the buffer and makes it eligible for reuse.  The call and the buffer
given back are recorded. -/
def pool.Put (fc : FieldContainer) (w : World) : World :=
  { w with trace := w.trace ++ [.poolPut], pool := w.pool ++ [.Put fc.id] }

/-! ## gzap -/

/-- The type `Config`; the `enableBody` cell it points to is `World.enableBody`. -/
structure Config where
  customFields : List (Request → Response → Field)
  skipLogging : Request → Response → Bool
  skipRequestBody : Request → Response → Bool
  skipResponseBody : Request → Response → Bool
  useLoggerLevel : Request → Response → Level
  limit : Int

/-- The type `Option` of the package: a change to the configuration. -/
abbrev ConfigOption := Config → Config

def WithCustomFields (fields : List (Request → Response → Field)) : ConfigOption :=
  fun c => { c with customFields := fields }

def WithSkipLogging (f : Option (Request → Response → Bool)) : ConfigOption :=
  fun c => match f with
    | some g => { c with skipLogging := g }
    | none => c

def WithBodyLimit (limit : Int) : ConfigOption :=
  fun c => { c with limit := limit }

def WithSkipRequestBody (f : Option (Request → Response → Bool)) : ConfigOption :=
  fun c => match f with
    | some g => { c with skipRequestBody := g }
    | none => c

def WithSkipResponseBody (f : Option (Request → Response → Bool)) : ConfigOption :=
  fun c => match f with
    | some g => { c with skipResponseBody := g }
    | none => c

def WithUseLoggerLevel (f : Option (Request → Response → Level)) : ConfigOption :=
  fun c => match f with
    | some g => { c with useLoggerLevel := g }
    | none => c

def skipRequestBody (lib : Lib) (req : Request) (_resp : Response) : Bool :=
  let v := Header.Get req.Header "Content-Type"
  match lib.ParseMediaType v with
  | none => false
  | some (d, params) =>
    if !(d == "multipart/form-data" || d == "multipart/mixed") then false
    else (params.find? (fun kv => kv.1 == "boundary")).isSome

def skipResponseBody (_req : Request) (_resp : Response) : Bool := false

def useLoggerLevel (_req : Request) (resp : Response) : Level :=
  let status := resp.StatusCode
  if status ≥ 500 ∧ status ≤ 511 then .ErrorLevel
  else if status ≥ 400 ∧ status ≤ 451 ∧ status ≠ 401 then .WarnLevel
  else .InfoLevel

def newConfig : Config :=
  { customFields := []
    skipLogging := fun _ _ => false
    skipRequestBody := fun _ _ => false
    skipResponseBody := fun _ _ => false
    useLoggerLevel := useLoggerLevel
    limit := 0 }

/-- The loop `for _, opt := range opts { opt(&cfg) }` on `newConfig()`. -/
def resolve (opts : List ConfigOption) : Config :=
  opts.foldl (fun c opt => opt c) newConfig

/-- How the body-capture step of `Logger` (the lines before the clock is read) ends:
with the early `return` of the read failure, or with the world and the `reqBody` text
the rest of the filter goes on with. -/
inductive Captured where
  | aborted (w : World)
  | proceed (w : World) (reqBody : String)

/-- The block `if cfg.enableBody.Load() { ... }` of `Logger`. -/
def Logger.capture (lib : Lib) (cfg : Config) (respBodyBuilder : Nat) (w : World) :
    Captured :=
  let reqBody := "skip request body"
  if w.enableBody then
    let w := { w with resp := { w.resp with
      ResponseWriter := .bodyWriter w.resp.ResponseWriter respBodyBuilder } }
    let hasSkipRequestBody := skipRequestBody lib w.req w.resp || cfg.skipRequestBody w.req w.resp
    if !hasSkipRequestBody then
      let r := io.ReadAll w.req.Body
      let reqBodyBuf := r.1
      let w := { w with req := { w.req with Body := r.2.2 } }
      match r.2.1 with
      | some err => .aborted (Response.WriteError lib 500 err w).1
      | none =>
        let w := { w with req := { w.req with Body := { w.req.Body with closed := true } } }
        let w := { w with req := { w.req with Body := io.NopCloser reqBodyBuf } }
        if cfg.limit > 0 ∧ (len reqBodyBuf : Int) ≥ cfg.limit then
          .proceed w "larger request body"
        else
          .proceed w reqBodyBuf
    else .proceed w reqBody
  else .proceed w reqBody

/-- The deferred function of `Logger`, with the variables it closes over. -/
def Logger.deferred (cfg : Config) (respBodyBuilder : Nat) (reqBody : String)
    (start : Int) (path query : String) (w : World) : World :=
  if cfg.skipLogging w.req w.resp then w
  else
    let level := if w.resp.Error.isSome then Level.ErrorLevel else cfg.useLoggerLevel w.req w.resp
    let g := pool.Get w
    let w := g.1
    let fc := g.2.Fields
    let rt := match w.req.SelectedRoute with
      | some r => (r.Path, zap.String "title" r.Doc)
      | none => ("", zap.Skip)
    let route := rt.1
    let title := rt.2
    let fc := fc ++ [title,
      zap.Int "status" w.resp.StatusCode,
      zap.String "method" w.req.Method,
      zap.String "path" path,
      zap.String "route" route,
      zap.String "query" query,
      zap.String "ip" w.req.RemoteAddr,
      zap.String "user-agent" (Header.Get w.req.Header "User-Agent"),
      zap.Duration "latency" (w.clock - start)]
    let fc := if w.enableBody then
        let respBody :=
          if !(skipResponseBody w.req w.resp || cfg.skipResponseBody w.req w.resp) then
            if cfg.limit > 0 ∧ (len (w.builders respBodyBuilder) : Int) ≥ cfg.limit then
              "larger response body"
            else w.builders respBodyBuilder
          else "skip response body"
        fc ++ [zap.String "requestBody" reqBody, zap.String "responseBody" respBody]
      else fc
    let fc := fc ++ cfg.customFields.map (fun fieldFunc => fieldFunc w.req w.resp)
    let fc := match w.resp.Error with
      | some err => fc ++ [zap.Error err]
      | none => fc
    let w := logger.Log level "logging" fc w
    pool.Put { g.2 with Fields := fc } w

/-- The filter `Logger(logger, opts...)` returns, for the configuration `cfg` the options
resolve to.  The deferred function runs whether the chain returns or panics, and a panic
of the chain goes on to the caller. -/
def Logger (lib : Lib) (cfg : Config) (chain : Chain) (w : World) :
    World × Option PanicValue :=
  let b := Builder.new w
  let respBodyBuilder := b.2
  match Logger.capture lib cfg respBodyBuilder b.1 with
  | .aborted w => (w, none)
  | .proceed w reqBody =>
    let start := w.clock
    let path := w.req.Path
    let query := w.req.RawQuery
    let r := chain w
    (Logger.deferred cfg respBodyBuilder reqBody start path query r.1, r.2)

/-- The classification at the head of the deferred function of `Recovery`: the value of
the variable `brokenPipe` when the classification is done.  `none` is the nil
dereference at `ne.Err` for a nil `*net.OpError`, a run-time panic raised inside the
deferred function. -/
def brokenPipe (err : PanicValue) : Option Bool :=
  match err with
  | .error .nilOpError => none
  | .error (.OpError _ _ _ _ (.SyscallError sc e)) =>
    let se := GoError.SyscallError sc e
    some (strings.Contains (strings.ToLower se.Error) "broken pipe" ||
      strings.Contains (strings.ToLower se.Error) "connection reset by peer")
  | _ => some false

/-- The value of the run-time panic of a nil dereference. -/
def nilDereference : PanicValue :=
  .error (.errorString "runtime error: invalid memory address or nil pointer dereference")

/-- The configuration `Recovery` works with: `cfg` plus the stack provider when `stack`. -/
def Recovery.config (lib : Lib) (stack : Bool) (cfg : Config) : Config :=
  if stack then
    { cfg with customFields := cfg.customFields ++ [fun _ _ => zap.ByteString "stack" lib.Stack] }
  else cfg

/-- The body of the deferred function of `Recovery` once `recover()` returned the
non-nil `err`.  The second component is a panic raised in the body itself, which leaves
the filter. -/
def Recovery.deferred (lib : Lib) (cfg : Config) (err : PanicValue) (w : World) :
    World × Option PanicValue :=
  match brokenPipe err with
  | none => (w, some nilDereference)
  | some isBrokenPipe =>
    let httpRequest := lib.DumpRequest w.req false
    if isBrokenPipe then
      let w := logger.Error w.req.Path
        [zap.Any "error" err, zap.ByteString "request" httpRequest] w
      match err.asError with
      | some e => ((Response.WriteError lib 500 e w).1, none)
      | none => (w, some (.error (.errorString "interface conversion: interface is not error")))
    else
      let g := pool.Get w
      let w := g.1
      let fc := g.2.Fields
      let fc := fc ++ [zap.Any "error" err, zap.ByteString "request" httpRequest]
      let fc := fc ++ cfg.customFields.map (fun field => field w.req w.resp)
      let w := logger.Error "recovery from panic" fc w
      let w := (Response.WriteErrorString lib 500 "panic" w).1
      (pool.Put { g.2 with Fields := fc } w, none)

/-- The filter `Recovery(logger, stack, opts...)` returns, for the configuration `cfg`
the options resolve to. -/
def Recovery (lib : Lib) (stack : Bool) (cfg : Config) (chain : Chain) (w : World) :
    World × Option PanicValue :=
  let cfg := Recovery.config lib stack cfg
  let r := chain w
  match r.2 with
  | some err => Recovery.deferred lib cfg err r.1
  | none => (r.1, none)

/-- The calls `w` got after the calls `before`: the suffix, when `before` starts it. -/
def callsSince (before after : List WriterCall) : List WriterCall :=
  after.drop before.length

/-- The bytes of the `Write` calls in a list of calls, in order. -/
def bodyOf : List WriterCall → String
  | [] => ""
  | .Write b :: t => b ++ bodyOf t
  | .WriteHeader _ :: t => bodyOf t

/-- The text of a panic value: the string itself, the digits of a number, the message
of an error. -/
def PanicValue.text : PanicValue → String
  | .str s => s
  | .int n => toString n
  | .error e => e.Error

/-- A panic value that is not an error. -/
def PanicValue.plain : PanicValue → Bool
  | .error _ => false
  | _ => true

/-- The test `hasSkipRequestBody` of `Logger` as the filter evaluates it on entry when
body capture is on: the response already carries the body writer. -/
def Logger.hasSkipRequestBody (lib : Lib) (cfg : Config) (w : World) : Bool :=
  let resp := { w.resp with
    ResponseWriter := ResponseWriter.bodyWriter w.resp.ResponseWriter w.nextBuilder }
  skipRequestBody lib w.req resp || cfg.skipRequestBody w.req resp

/-- The builders a writer duplicates into. -/
def ResponseWriter.dups : ResponseWriter → List Nat
  | .server => []
  | .bodyWriter inner d => d :: inner.dups

/-- A sequence of `Write` calls on one writer: the world after them and what each call
returned, in order. -/
def writeAll (lib : Lib) (rw : ResponseWriter) :
    List String → World → World × List (Int × Option GoError)
  | [], w => (w, [])
  | b :: bs, w =>
    let r := ResponseWriter.Write lib rw b w
    let rest := writeAll lib rw bs r.1
    (rest.1, r.2 :: rest.2)

/-- What the server's writer returns for a sequence of `Write` calls made after the
calls `calls`. -/
def serverResults (lib : Lib) : List WriterCall → List String → List (Int × Option GoError)
  | _, [] => []
  | calls, b :: bs => lib.serverWrite calls b :: serverResults lib (calls ++ [.Write b]) bs

/-- The world a body-capture step ends with, on either exit. -/
def Captured.world : Captured → World
  | .aborted w => w
  | .proceed w _ => w

/-- A downstream stage during which the body-capture toggle is set to `t` by another
task: the stage does what `chain` does and the toggle reads `t` when it is done. -/
def withToggle (t : Bool) (chain : Chain) : Chain := fun w =>
  ({ (chain w).1 with enableBody := t }, (chain w).2)

/-- A handler making the calls `calls` on the response, in order: `resp.WriteHeader(n)`
for `.WriteHeader n` and `resp.Write(b)` for `.Write b`. -/
def respond (lib : Lib) : List WriterCall → World → World
  | [], w => w
  | .WriteHeader n :: t, w => respond lib t (Response.WriteHeader n w)
  | .Write b :: t, w => respond lib t (Response.Write lib b w).1

/-- The downstream chain that ends in a handler making the calls `calls` on the response
and returning. -/
def handlerOf (lib : Lib) (calls : List WriterCall) : Chain := fun w =>
  (respond lib calls w, none)

/-- The body fields of a field list: those keyed "requestBody" or "responseBody". -/
def bodyFields (fields : List Field) : List Field :=
  fields.filter (fun f => f.Key == "requestBody" || f.Key == "responseBody")

/-- The keys of a field list, in order. -/
def keysOf (fields : List Field) : List String := fields.map (fun f => f.Key)

/-! ## Concrete inputs -/

/-- A library whose server writer accepts every write in full. -/
def exLib : Lib :=
  { DumpRequest := fun r _ => r.Method ++ " " ++ r.Path
    Stack := "goroutine 1 [running]"
    ParseMediaType := fun _ => none
    serverWrite := fun _ b => (b.length, none) }

/-- A library whose server writer takes one byte of every write and then fails. -/
def exLibShort : Lib :=
  { exLib with serverWrite := fun _ _ => (1, some (.errorString "short write")) }

/-- A `POST /items?x=1` request whose body reads as "hello". -/
def exRequest : Request :=
  { Method := "POST"
    Path := "/items"
    RawQuery := "x=1"
    RemoteAddr := "10.0.0.1:4000"
    Header := [("User-Agent", "curl")]
    Body := { data := "hello", err := none, closed := false }
    SelectedRoute := none }

/-- A fresh response on the server's writer. -/
def exResponse : Response :=
  { ResponseWriter := .server, statusCode := 0, contentLength := 0, err := none }

/-- A world at the start of a request, body capture off. -/
def exWorld : World :=
  { req := exRequest
    resp := exResponse
    server := []
    builders := fun _ => ""
    nextBuilder := 0
    enableBody := false
    clock := 0
    trace := [] }

/-- The same world with body capture on. -/
def exWorldBody : World := { exWorld with enableBody := true }

/-- Body capture on and a request body whose read fails after "he". -/
def exWorldReadFails : World :=
  { exWorldBody with
    req := { exRequest with
      Body := { data := "he", err := some (.errorString "unexpected EOF"), closed := false } } }

/-- A handler that writes "ok" with status 200. -/
def exHandlerOk : Chain := fun w =>
  ((Response.Write exLib "ok" (Response.WriteHeader 200 w)).1, none)

/-- A handler that fails the request with a terminal error and status 404. -/
def exHandlerError : Chain := fun w =>
  ((Response.WriteError exLib 404 (.errorString "no such item") w).1, none)

/-- A handler that panics with the plain string "panic". -/
def exHandlerPanic : Chain := fun w => (w, some (.str "panic"))

/-- The error of a write to a connection the peer has closed. -/
def exBrokenPipe : GoError :=
  .OpError "write" "tcp" none none (.SyscallError "write" (.errorString "broken pipe"))

/-- A handler that panics with the broken-pipe error. -/
def exHandlerBrokenPipe : Chain := fun w => (w, some (.error exBrokenPipe))

/-- A handler that panics with the nil pointer `(*net.OpError)(nil)`. -/
def exHandlerNilOpError : Chain := fun w => (w, some (.error .nilOpError))

/-- A handler that does nothing. -/
def exHandlerIdle : Chain := fun w => (w, none)

/-- A handler that only lets one tick of the clock pass. -/
def exHandlerTick : Chain := fun w => ({ w with clock := w.clock + 1 }, none)

/-- A downstream stage that overwrites the path and the query of the request in place. -/
def exHandlerRewrite : Chain := fun w =>
  ({ w with req := { w.req with Path := "/internal", RawQuery := "" } }, none)

/-- A configuration whose caller-supplied skipResponseBody holds on every request. -/
def exConfigSkipResponse : Config := WithSkipResponseBody (some (fun _ _ => true)) newConfig

/-- A configuration whose caller-supplied level function answers debug. -/
def exConfigDebug : Config := WithUseLoggerLevel (some (fun _ _ => .DebugLevel)) newConfig

/-- A configuration with one custom field. -/
def exConfigApp : Config := WithCustomFields [fun _ _ => zap.String "app" "demo"] newConfig

/-- A library whose `mime.ParseMediaType` knows three Content-Type values and answers
for them what the Go function answers. -/
def exLibMime : Lib :=
  { exLib with
    ParseMediaType := fun v =>
      if v = "multipart/form-data; boundary=x" then
        some ("multipart/form-data", [("boundary", "x")])
      else if v = "multipart/related; boundary=x" then
        some ("multipart/related", [("boundary", "x")])
      else if v = "multipart/form-data" then
        some ("multipart/form-data", [])
      else none }

/-- Body capture on and a `multipart/related` request with a boundary. -/
def exWorldRelated : World :=
  { exWorldBody with
    req := { exRequest with Header := [("Content-Type", "multipart/related; boundary=x")] } }

/-- Body capture on and a `multipart/form-data` request with a boundary. -/
def exWorldFormData : World :=
  { exWorldBody with
    req := { exRequest with Header := [("Content-Type", "multipart/form-data; boundary=x")] } }

end gzap

/-! # The authj authorizer

A shallow embedding of `authj/authj.go`.  The filter works on the same request and
response as the gzap filters; what it calls (the enforcer, the two fallbacks, the
chain) is returned next to the outcome, in the order of the calls. -/

namespace authj

open gzap (GoError PanicValue Request Response World Chain Lib WriterCall)

/-- The method `Enforce(sub, obj, act)` of the casbin enforcer at the time of the
request: the decision and the error. -/
abbrev Enforcer := String → String → String → Bool × Option GoError

/-- The type `Config`. -/
structure Config where
  errFallback : GoError → World → World
  forbiddenFallback : World → World
  skipAuthentication : Request → Response → Bool
  subject : Request → Response → String

/-- The type `Option` of the package: a change to the configuration. -/
abbrev ConfigOption := Config → Config

def WithErrorFallback (fn : Option (GoError → World → World)) : ConfigOption :=
  fun cfg => match fn with
    | some f => { cfg with errFallback := f }
    | none => cfg

def WithForbiddenFallback (fn : Option (World → World)) : ConfigOption :=
  fun cfg => match fn with
    | some f => { cfg with forbiddenFallback := f }
    | none => cfg

def WithSubject (fn : Option (Request → Response → String)) : ConfigOption :=
  fun cfg => match fn with
    | some f => { cfg with subject := f }
    | none => cfg

def WithSkipAuthentication (fn : Option (Request → Response → Bool)) : ConfigOption :=
  fun cfg => match fn with
    | some f => { cfg with skipAuthentication := f }
    | none => cfg

def Subject (req : Request) (_resp : Response) : String :=
  match req.ctxAuth with
  | some val => val
  | none => ""

def ContextWithSubject (subject : String) (w : World) : World :=
  { w with req := { w.req with ctxAuth := some subject } }

/-- The method `WriteHeaderAndJson(status, value, contentType)` of go-restful for a
non-nil value whose encoding is `output`: the status, then the encoded bytes. -/
def WriteHeaderAndJson (lib : Lib) (status : Int) (output : String) (w : World) : World :=
  (gzap.Response.Write lib output (gzap.Response.WriteHeader status w)).1

/-- The configuration `Authorizer` starts from; `json code msg` is the encoding of the
map with the keys "code" and "msg". -/
def defaultConfig (lib : Lib) (json : Int → String → String) : Config :=
  { errFallback := fun _ w =>
      WriteHeaderAndJson lib 500 (json 500 "Permission validation errors occur!") w
    forbiddenFallback := fun w =>
      WriteHeaderAndJson lib 403 (json 403 "Permission denied!") w
    skipAuthentication := fun _ _ => false
    subject := Subject }

/-- The loop over the options on the default configuration. -/
def resolve (lib : Lib) (json : Int → String → String) (opts : List ConfigOption) : Config :=
  opts.foldl (fun c opt => opt c) (defaultConfig lib json)

/-- A call the filter makes. -/
inductive Call where
  | Enforce (sub : String) (obj : String) (act : String)
  | errFallback (err : GoError)
  | forbiddenFallback
  | ProcessFilter
  deriving DecidableEq, Repr

/-- The filter `Authorizer(e, opts...)` returns, for the configuration `cfg` the options
resolve to: the outcome and the calls it made, in order. -/
def Authorizer (e : Enforcer) (cfg : Config) (chain : Chain) (w : World) :
    (World × Option PanicValue) × List Call :=
  if !cfg.skipAuthentication w.req w.resp then
    let sub := cfg.subject w.req w.resp
    let r := e sub w.req.Path w.req.Method
    match r.2 with
    | some err => ((cfg.errFallback err w, none), [.Enforce sub w.req.Path w.req.Method,
        .errFallback err])
    | none =>
      if !r.1 then
        ((cfg.forbiddenFallback w, none), [.Enforce sub w.req.Path w.req.Method,
          .forbiddenFallback])
      else (chain w, [.Enforce sub w.req.Path w.req.Method, .ProcessFilter])
  else (chain w, [.ProcessFilter])

/-! ## Concrete inputs -/

/-- An enforcer that lets alice read `/dataset1/resource1`, denies everything else and
fails on an empty subject. -/
def exEnforcer : Enforcer := fun sub obj act =>
  if sub = "" then (false, some (.errorString "invalid request size"))
  else (sub == "alice" && obj == "/dataset1/resource1" && act == "GET", none)

/-- The encoding of the two-key map, in one line. -/
def exJson : Int → String → String := fun code msg =>
  "code=" ++ toString code ++ " msg=" ++ msg

/-- A `GET /dataset1/resource1` request with the subject `sub` in its context. -/
def exWorldOf (sub : String) (method : String) : World :=
  ContextWithSubject sub
    { gzap.exWorld with
      req := { gzap.exRequest with Method := method, Path := "/dataset1/resource1" } }

/-- The skip predicate of the test `TestSkipAuthentication`. -/
def exSkip : Request → Response → Bool := fun req _ =>
  req.Method == "GET" && req.Path == "/skip/authentication"

end authj

/-! # The traceid filter

A shallow embedding of `traceid/traceid.go`.  The generator `nextTraceId` is a function
on a state of its own. -/

namespace gzap

/-- The values a `context.Context` of a request holds under the keys of this
repository. -/
structure Context where
  auth : Option String
  traceId : Option String
  deriving DecidableEq, Repr

/-- The call `req.Request.WithContext(ctx)`. -/
def Request.WithContext (r : Request) (ctx : Context) : Request :=
  { r with ctxAuth := ctx.auth, ctxTraceId := ctx.traceId }

/-- The call `req.Request.Context()`. -/
def Request.Context (r : Request) : Context := { auth := r.ctxAuth, traceId := r.ctxTraceId }

end gzap

namespace traceid

open gzap (PanicValue Request Response World Chain Context)

/-- The method `Get(key)` of `http.Header`; `canon` is `CanonicalMIMEHeaderKey`. -/
def Header.Get (canon : String → String) (h : List (String × String)) (key : String) :
    String :=
  gzap.Header.Get h (canon key)

/-- The method `Set(key, value)` of `http.Header`. -/
def Header.Set (canon : String → String) (h : List (String × String)) (key value : String) :
    List (String × String) :=
  (canon key, value) :: h.filter (fun kv => !(kv.1 == canon key))

/-- The type `Config`; `σ` is the state of the generator. -/
structure Config (σ : Type) where
  traceIdHeader : String
  nextTraceId : σ → String × σ

def WithTraceIdHeader {σ : Type} (s : String) (c : Config σ) : Config σ :=
  { c with traceIdHeader := s }

def WithNextTraceId {σ : Type} (f : σ → String × σ) (c : Config σ) : Config σ :=
  { c with nextTraceId := f }

def WithTraceId (ctx : Context) (traceId : String) : Context :=
  { ctx with traceId := some traceId }

def FromTraceId (ctx : Context) : String :=
  match ctx.traceId with
  | some traceId => traceId
  | none => ""

/-- The filter `TraceId(opts...)` returns, for the configuration `cc` the options
resolve to: the outcome of the chain and the state of the generator. -/
def TraceId {σ : Type} (canon : String → String) (cc : Config σ) (fc : Chain) (w : World)
    (g : σ) : (World × Option PanicValue) × σ :=
  let traceId := Header.Get canon w.req.Header cc.traceIdHeader
  let r := if traceId = "" then cc.nextTraceId g else (traceId, g)
  let traceId := r.1
  let w := { w with respHeader := Header.Set canon w.respHeader cc.traceIdHeader traceId }
  let w := { w with req := w.req.WithContext (WithTraceId w.req.Context traceId) }
  (fc w, r.2)

/-- The world `TraceId` runs the chain on. -/
def TraceId.entered {σ : Type} (canon : String → String) (cc : Config σ) (w : World)
    (g : σ) : World :=
  (TraceId canon cc (fun x => (x, none)) w g).1.1

/-! ## Concrete inputs -/

/-- A generator that numbers its ids. -/
def exNext : Nat → String × Nat := fun n => ("id-" ++ toString n, n + 1)

/-- The default configuration over `exNext`. -/
def exConfig : Config Nat := { traceIdHeader := "X-Trace-Id", nextTraceId := exNext }

/-- A request that carries the trace id "abc". -/
def exWorldTraced : World :=
  { gzap.exWorld with req := { gzap.exRequest with Header := [("X-Trace-Id", "abc")] } }

end traceid

/-! # The gormzap logger

A shallow embedding of `Info`, `Warn` and `Error` of `gormzap/gz.go`. -/

namespace gzap

/-- The number zap gives a level. -/
def Level.toInt : Level → Int
  | .DebugLevel => -1
  | .InfoLevel => 0
  | .WarnLevel => 1
  | .ErrorLevel => 2
  | .DPanicLevel => 3
  | .PanicLevel => 4
  | .FatalLevel => 5

/-- The method `Enabled(lvl)` of `zapcore.Level`: `lvl >= l`. -/
def Level.Enabled (l lvl : Level) : Bool := decide (lvl.toInt ≥ l.toInt)

end gzap

namespace gormzap

open gzap (Level Field Entry PoolCall FieldContainer)

/-- The `*zap.Logger` of the gorm logger and the field pool: the level `log.Level()`
reports, the entries the logger has written, the calls the pool has received. -/
structure Zap where
  Level : Level
  written : List Entry
  pool : List PoolCall
  deriving DecidableEq, Repr

/-- The methods `Debug`, `Info`, `Warn`, `Error` of `*zap.Logger`: the entry is written
when the level of the logger enables `lvl`. -/
def log.at (lvl : Level) (msg : String) (fields : List Field) (s : Zap) : Zap :=
  if s.Level.Enabled lvl then { s with written := s.written ++ [⟨lvl, msg, fields⟩] } else s

def log.Debug (msg : String) (fields : List Field) (s : Zap) : Zap :=
  log.at .DebugLevel msg fields s

def log.Info (msg : String) (fields : List Field) (s : Zap) : Zap :=
  log.at .InfoLevel msg fields s

def log.Warn (msg : String) (fields : List Field) (s : Zap) : Zap :=
  log.at .WarnLevel msg fields s

def log.Error (msg : String) (fields : List Field) (s : Zap) : Zap :=
  log.at .ErrorLevel msg fields s

/-- Modelled from the spec: `pool.Get` of package `internal/pool`, which is not among the
sources, on the state of this package.  Section 4.1: `acquire` returns a buffer whose
field list is empty. -/
def pool.Get (s : Zap) : Zap × FieldContainer :=
  ({ s with pool := s.pool ++ [.Get s.pool.length] }, { id := s.pool.length, Fields := [] })

/-- Modelled from the spec: `pool.Put(fc)` of package `internal/pool`, on the state of
this package. -/
def pool.Put (fc : FieldContainer) (s : Zap) : Zap :=
  { s with pool := s.pool ++ [.Put fc.id] }

/-- The levels of `gorm.io/gorm/logger`. -/
def logger.Silent : Int := 1
def logger.Error : Int := 2
def logger.Warn : Int := 3
def logger.Info : Int := 4

/-- The type `CallerCore`, declared in a file that is not among the sources; what `Info`,
`Warn` and `Error` use of it is taken as given. -/
structure CallerCore where
  caller : Option (Int → List String → Field)
  skip : Int
  skipPackages : List String
  Enabled : Level → Bool

/-- The type `Logger`, with the `LogLevel` of the embedded `logger.Config`; `Ctx` is
`context.Context`. -/
structure Logger (Ctx : Type) where
  LogLevel : Int
  customFields : List (Ctx → Field)
  callerCore : CallerCore

/-- The body shared by `Info`, `Warn` and `Error` once the level test has passed, with
the zap method the function calls given as `emit`. -/
def Logger.emitWith {Ctx : Type} (l : Logger Ctx) (lvl : Level)
    (emit : String → List Field → Zap → Zap) (ctx : Ctx) (msg : String) (s : Zap) : Zap :=
  let neeCaller := l.callerCore.caller.isSome && l.callerCore.Enabled lvl
  if neeCaller || l.customFields.length > 0 then
    let g := pool.Get s
    let fc := g.2.Fields ++ l.customFields.map (fun customField => customField ctx)
    let fc := match l.callerCore.caller with
      | some caller =>
        if neeCaller then fc ++ [caller l.callerCore.skip l.callerCore.skipPackages] else fc
      | none => fc
    let s := emit msg fc g.1
    pool.Put { g.2 with Fields := fc } s
  else emit msg [] s

/-- The method `Info`; `Sprintf` is `fmt.Sprintf`. -/
def Logger.Info {Ctx : Type} (Sprintf : String → List String → String) (l : Logger Ctx)
    (ctx : Ctx) (msg : String) (args : List String) (s : Zap) : Zap :=
  if l.LogLevel ≥ logger.Info ∧ s.Level.Enabled .InfoLevel then
    let msg := Sprintf msg args
    l.emitWith .InfoLevel log.Debug ctx msg s
  else s

/-- The method `Warn`. -/
def Logger.Warn {Ctx : Type} (Sprintf : String → List String → String) (l : Logger Ctx)
    (ctx : Ctx) (msg : String) (args : List String) (s : Zap) : Zap :=
  if l.LogLevel ≥ logger.Warn ∧ s.Level.Enabled .WarnLevel then
    let msg := Sprintf msg args
    l.emitWith .WarnLevel log.Warn ctx msg s
  else s

/-- The method `Error`. -/
def Logger.Error {Ctx : Type} (Sprintf : String → List String → String) (l : Logger Ctx)
    (ctx : Ctx) (msg : String) (args : List String) (s : Zap) : Zap :=
  if l.LogLevel ≥ logger.Error ∧ s.Level.Enabled .ErrorLevel then
    let msg := Sprintf msg args
    l.emitWith .ErrorLevel log.Error ctx msg s
  else s

/-! ## Concrete inputs -/

/-- A formatter that appends the arguments to the message. -/
def exSprintf : String → List String → String := fun msg args =>
  args.foldl (fun r a => r ++ " " ++ a) msg

/-- A gorm logger at `logger.Info` with no custom field and no caller. -/
def exLogger : Logger Unit :=
  { LogLevel := logger.Info
    customFields := []
    callerCore := { caller := none, skip := 0, skipPackages := [], Enabled := fun _ => false } }

/-- A zap logger at the given level that has written nothing yet. -/
def exZap (level : Level) : Zap := { Level := level, written := [], pool := [] }

end gormzap


/-! ## Frame lemmas -/

namespace gzap

theorem hasInfix_iff (s sub : List Char) : hasInfix s sub = true ↔ sub <:+: s := by
  induction s with
  | nil => simp [hasInfix, List.isEmpty_iff]
  | cons c cs ih =>
    simp only [hasInfix, Bool.or_eq_true, ih, List.infix_cons_iff, List.isPrefixOf_iff_prefix]

theorem entries_append (a b : List Event) : entries (a ++ b) = entries a ++ entries b := by
  induction a with
  | nil => rfl
  | cons x t ih => cases x <;> simp [entries, ih]

theorem WriteHeader_eq (rw : ResponseWriter) (n : Int) (w : World) :
    ResponseWriter.WriteHeader rw n w = { w with server := w.server ++ [.WriteHeader n] } := by
  induction rw with
  | server => rfl
  | bodyWriter inner d ih => simpa [ResponseWriter.WriteHeader] using ih

theorem Write_frame (lib : Lib) (rw : ResponseWriter) (b : String) (w : World) :
    (ResponseWriter.Write lib rw b w).1.server = w.server ++ [.Write b] ∧
    (ResponseWriter.Write lib rw b w).1.trace = w.trace ∧
    (ResponseWriter.Write lib rw b w).1.resp = w.resp ∧
    (ResponseWriter.Write lib rw b w).1.req = w.req ∧
    (ResponseWriter.Write lib rw b w).1.enableBody = w.enableBody ∧
    (ResponseWriter.Write lib rw b w).1.clock = w.clock ∧
    (ResponseWriter.Write lib rw b w).1.nextBuilder = w.nextBuilder := by
  induction rw generalizing w with
  | server => simp [ResponseWriter.Write]
  | bodyWriter inner d ih =>
    simp only [ResponseWriter.Write, bodyWriter.Write]
    have h := ih (Builder.Write d b w)
    simpa [Builder.Write] using h

theorem WriteErrorString_frame (lib : Lib) (s : Int) (reason : String) (w : World) :
    (Response.WriteErrorString lib s reason w).1.trace = w.trace ∧
    (Response.WriteErrorString lib s reason w).1.server =
      w.server ++ [.WriteHeader s, .Write reason] ∧
    (Response.WriteErrorString lib s reason w).1.resp.statusCode = s ∧
    (Response.WriteErrorString lib s reason w).1.req = w.req ∧
    (Response.WriteErrorString lib s reason w).1.resp.err =
      (if w.resp.err.isNone then some (.errorString reason) else w.resp.err) := by
  simp only [Response.WriteErrorString, Response.Write, Response.WriteHeader, WriteHeader_eq]
  split_ifs with h
  · have f := Write_frame lib w.resp.ResponseWriter reason
      { w with resp := { w.resp with err := some (.errorString reason), statusCode := s },
               server := w.server ++ [.WriteHeader s] }
    obtain ⟨f1, f2, f3, f4, -⟩ := f
    simp_all
  · have f := Write_frame lib w.resp.ResponseWriter reason
      { w with resp := { w.resp with statusCode := s },
               server := w.server ++ [.WriteHeader s] }
    obtain ⟨f1, f2, f3, f4, -⟩ := f
    simp_all

theorem WriteError_frame (lib : Lib) (s : Int) (err : GoError) (w : World) :
    (Response.WriteError lib s err w).1.trace = w.trace ∧
    (Response.WriteError lib s err w).1.server =
      w.server ++ [.WriteHeader s, .Write err.Error] ∧
    (Response.WriteError lib s err w).1.resp.statusCode = s ∧
    (Response.WriteError lib s err w).1.req = w.req ∧
    (Response.WriteError lib s err w).1.resp.err = some err := by
  have f := WriteErrorString_frame lib s err.Error
    { w with resp := { w.resp with err := some err } }
  simpa [Response.WriteError] using f

/-! ## The default level policy -/

/-- C1: the default level-selection function returns error for a status from 500 to 511,
warn for a status from 400 to 451 other than 401, and info for every other status; so
500 gives error, 404 gives warn, 200 and 401 give info. -/
theorem useLoggerLevel_by_status (req : Request) (resp : Response) :
    ((500 ≤ resp.StatusCode ∧ resp.StatusCode ≤ 511) →
      useLoggerLevel req resp = .ErrorLevel) ∧
    ((400 ≤ resp.StatusCode ∧ resp.StatusCode ≤ 451 ∧ resp.StatusCode ≠ 401) →
      useLoggerLevel req resp = .WarnLevel) ∧
    ((¬ (500 ≤ resp.StatusCode ∧ resp.StatusCode ≤ 511) ∧
      ¬ (400 ≤ resp.StatusCode ∧ resp.StatusCode ≤ 451 ∧ resp.StatusCode ≠ 401)) →
      useLoggerLevel req resp = .InfoLevel) ∧
    (resp.StatusCode = 500 → useLoggerLevel req resp = .ErrorLevel) ∧
    (resp.StatusCode = 404 → useLoggerLevel req resp = .WarnLevel) ∧
    (resp.StatusCode = 200 → useLoggerLevel req resp = .InfoLevel) ∧
    (resp.StatusCode = 401 → useLoggerLevel req resp = .InfoLevel) := by
  refine ⟨?_, ?_, ?_, ?_, ?_, ?_, ?_⟩
  · intro h
    simp [useLoggerLevel, h]
  · intro h
    have h5 : ¬ (resp.StatusCode ≥ 500 ∧ resp.StatusCode ≤ 511) := by omega
    simp only [useLoggerLevel, h5, if_false]
    rw [if_pos]
    exact ⟨h.1, h.2.1, h.2.2⟩
  · intro h
    have h5 : ¬ (resp.StatusCode ≥ 500 ∧ resp.StatusCode ≤ 511) := h.1
    have h4 : ¬ (resp.StatusCode ≥ 400 ∧ resp.StatusCode ≤ 451 ∧ resp.StatusCode ≠ 401) := h.2
    simp only [useLoggerLevel, h5, h4, if_false]
  · intro h
    simp [useLoggerLevel, h]
  · intro h
    simp [useLoggerLevel, h]
  · intro h
    simp [useLoggerLevel, h]
  · intro h
    simp [useLoggerLevel, h]

end gzap

/-! ## The access-logging filter: how many entries -/

namespace gzap

theorem Logger_of_proceed (lib : Lib) (cfg : Config) (chain : Chain) (w w1 : World)
    (reqBody : String)
    (h : Logger.capture lib cfg (Builder.new w).2 (Builder.new w).1 = .proceed w1 reqBody) :
    Logger lib cfg chain w =
      (Logger.deferred cfg (Builder.new w).2 reqBody w1.clock w1.req.Path w1.req.RawQuery
        (chain w1).1, (chain w1).2) := by
  simp only [Logger, h]

theorem Logger_of_aborted (lib : Lib) (cfg : Config) (chain : Chain) (w w1 : World)
    (h : Logger.capture lib cfg (Builder.new w).2 (Builder.new w).1 = .aborted w1) :
    Logger lib cfg chain w = (w1, none) := by
  simp only [Logger, h]

theorem deferred_skip (cfg : Config) (d : Nat) (reqBody : String) (start : Int)
    (path query : String) (w : World) (h : cfg.skipLogging w.req w.resp = true) :
    Logger.deferred cfg d reqBody start path query w = w := by
  simp [Logger.deferred, h]

theorem deferred_logs (cfg : Config) (d : Nat) (reqBody : String) (start : Int)
    (path query : String) (w : World) (h : cfg.skipLogging w.req w.resp = false) :
    ∃ e, (Logger.deferred cfg d reqBody start path query w).trace =
      w.trace ++ [.poolGet, .log e, .poolPut] := by
  simp [Logger.deferred, h, pool.Get, pool.Put, logger.Log]

theorem capture_proceeds (lib : Lib) (cfg : Config) (w : World)
    (hok : w.enableBody = false ∨ Logger.hasSkipRequestBody lib cfg w = true ∨
      w.req.Body.err = none) :
    ∃ w1 reqBody,
      Logger.capture lib cfg (Builder.new w).2 (Builder.new w).1 = .proceed w1 reqBody := by
  cases hen : w.enableBody with
  | false =>
    simp only [Logger.capture, Builder.new, hen, Bool.false_eq_true, if_false]
    exact ⟨_, _, rfl⟩
  | true =>
    cases hsk : Logger.hasSkipRequestBody lib cfg w with
    | true =>
      simp only [Logger.hasSkipRequestBody] at hsk
      simp only [Logger.capture, Builder.new, hen, if_true, hsk, Bool.not_true,
        Bool.false_eq_true, if_false]
      exact ⟨_, _, rfl⟩
    | false =>
      have herr : w.req.Body.err = none := by
        rcases hok with h | h | h
        · rw [hen] at h
          cases h
        · rw [hsk] at h
          cases h
        · exact h
      simp only [Logger.hasSkipRequestBody] at hsk
      simp only [Logger.capture, Builder.new, hen, if_true, hsk, Bool.not_false, io.ReadAll,
        herr]
      split_ifs
      · exact ⟨_, _, rfl⟩
      · exact ⟨_, _, rfl⟩

theorem capture_aborts (lib : Lib) (cfg : Config) (w : World) (err : GoError)
    (hen : w.enableBody = true) (hskip : Logger.hasSkipRequestBody lib cfg w = false)
    (herr : w.req.Body.err = some err) :
    ∃ w1, Logger.capture lib cfg (Builder.new w).2 (Builder.new w).1 = .aborted w1 ∧
      w1.trace = w.trace ∧ w1.resp.statusCode = 500 ∧ w1.resp.err = some err := by
  simp only [Logger.hasSkipRequestBody] at hskip
  simp only [Logger.capture, Builder.new, hen, if_true, hskip, Bool.not_false, io.ReadAll, herr]
  refine ⟨_, rfl, ?_, ?_, ?_⟩
  · rw [(WriteError_frame lib 500 err _).1]
  · exact (WriteError_frame lib 500 err _).2.2.1
  · exact (WriteError_frame lib 500 err _).2.2.2.2

/-- C2, counterexample: with body capture on and a request body whose read fails, the
default configuration (whose skipLogging is false on every request) emits no entry. -/
theorem Logger_read_failure_no_entry :
    newConfig.skipLogging (Logger exLib newConfig exHandlerOk exWorldReadFails).1.req
      (Logger exLib newConfig exHandlerOk exWorldReadFails).1.resp = false ∧
    (entries (Logger exLib newConfig exHandlerOk exWorldReadFails).1.trace).length = 0 ∧
    (Logger exLib newConfig exHandlerOk exWorldReadFails).1.server =
      [.WriteHeader 500, .Write "unexpected EOF"] := by
  decide

/-- C2, amended: for every request the Logger filter passes to the downstream chain
(body capture is off, or the request body is exempt, or its read succeeds), whether the
chain returns or panics, the filter adds to the sink exactly one entry when skipLogging
is false on the request and response as the chain left them, and none when it is true. -/
theorem Logger_entries_when_chain_runs (lib : Lib) (cfg : Config) (chain : Chain)
    (w : World)
    (hok : w.enableBody = false ∨ Logger.hasSkipRequestBody lib cfg w = true ∨
      w.req.Body.err = none) :
    ∃ w1 reqBody,
      Logger.capture lib cfg (Builder.new w).2 (Builder.new w).1 = .proceed w1 reqBody ∧
      (Logger lib cfg chain w).2 = (chain w1).2 ∧
      (cfg.skipLogging (chain w1).1.req (chain w1).1.resp = false →
        (∃ e, (Logger lib cfg chain w).1.trace =
          (chain w1).1.trace ++ [.poolGet, .log e, .poolPut]) ∧
        (entries (Logger lib cfg chain w).1.trace).length =
          (entries (chain w1).1.trace).length + 1) ∧
      (cfg.skipLogging (chain w1).1.req (chain w1).1.resp = true →
        (Logger lib cfg chain w).1.trace = (chain w1).1.trace ∧
        (entries (Logger lib cfg chain w).1.trace).length =
          (entries (chain w1).1.trace).length) := by
  obtain ⟨w1, reqBody, h⟩ := capture_proceeds lib cfg w hok
  refine ⟨w1, reqBody, h, ?_, ?_, ?_⟩
  · rw [Logger_of_proceed lib cfg chain w w1 reqBody h]
  · intro hs
    rw [Logger_of_proceed lib cfg chain w w1 reqBody h]
    obtain ⟨e, he⟩ := deferred_logs cfg (Builder.new w).2 reqBody w1.clock w1.req.Path
      w1.req.RawQuery (chain w1).1 hs
    refine ⟨⟨e, he⟩, ?_⟩
    simp only [he, entries_append, entries, List.length_append, List.length_cons,
      List.length_nil]
  · intro hs
    rw [Logger_of_proceed lib cfg chain w w1 reqBody h]
    simp only [deferred_skip cfg (Builder.new w).2 reqBody w1.clock w1.req.Path
      w1.req.RawQuery (chain w1).1 hs, and_self]

/-- Body capture on and the body "hello" read without error: one entry. -/
theorem Logger_entries_when_chain_runs_witness :
    exWorldBody.req.Body.err = none ∧
    ∃ w1 reqBody,
      Logger.capture exLib newConfig (Builder.new exWorldBody).2 (Builder.new exWorldBody).1 =
        .proceed w1 reqBody ∧
      (newConfig.skipLogging (exHandlerOk w1).1.req (exHandlerOk w1).1.resp = false →
        (entries (Logger exLib newConfig exHandlerOk exWorldBody).1.trace).length =
          (entries (exHandlerOk w1).1.trace).length + 1) := by
  refine ⟨rfl, ?_⟩
  obtain ⟨w1, reqBody, t1, -, t3, -⟩ :=
    Logger_entries_when_chain_runs exLib newConfig exHandlerOk exWorldBody
      (Or.inr (Or.inr rfl))
  exact ⟨w1, reqBody, t1, fun hs => (t3 hs).2⟩

end gzap

/-! ## The panic-recovery filter -/

namespace gzap

theorem brokenPipe_is_error (v : PanicValue) (h : brokenPipe v = true) :
    ∃ e, v = .error e := by
  cases v with
  | str s => simp [brokenPipe] at h
  | int n => simp [brokenPipe] at h
  | error e => exact ⟨e, rfl⟩

theorem plain_not_brokenPipe (v : PanicValue) (h : v.plain = true) : brokenPipe v = false := by
  cases v with
  | str s => rfl
  | int n => rfl
  | error e => simp [PanicValue.plain] at h

theorem Recovery_of_panic (lib : Lib) (stack : Bool) (cfg : Config) (chain : Chain)
    (w : World) (v : PanicValue) (hp : (chain w).2 = some v) :
    Recovery lib stack cfg chain w =
      Recovery.deferred lib (Recovery.config lib stack cfg) v (chain w).1 := by
  simp only [Recovery, hp]

theorem Recovery_deferred_defect (lib : Lib) (cfg : Config) (v : PanicValue) (w : World)
    (h : brokenPipe v = false) :
    (Recovery.deferred lib cfg v w).2 = none ∧
    (Recovery.deferred lib cfg v w).1.trace =
      w.trace ++ [.poolGet,
        .log ⟨.ErrorLevel, "recovery from panic",
          [zap.Any "error" v, zap.ByteString "request" (lib.DumpRequest w.req false)] ++
            cfg.customFields.map (fun field => field w.req w.resp)⟩,
        .poolPut] ∧
    (Recovery.deferred lib cfg v w).1.server =
      w.server ++ [.WriteHeader 500, .Write "panic"] ∧
    (Recovery.deferred lib cfg v w).1.resp.statusCode = 500 := by
  have f := WriteErrorString_frame lib 500 "panic"
    (logger.Error "recovery from panic"
      ((pool.Get w).2.Fields ++
        [zap.Any "error" v, zap.ByteString "request" (lib.DumpRequest w.req false)] ++
        cfg.customFields.map (fun field => field (pool.Get w).1.req (pool.Get w).1.resp))
      (pool.Get w).1)
  obtain ⟨f1, f2, f3, -, -⟩ := f
  simp only [Recovery.deferred, h, Bool.false_eq_true, if_false, pool.Put]
  refine ⟨trivial, ?_, ?_, ?_⟩
  · simp only [f1]
    simp [logger.Error, logger.Log, pool.Get]
  · simp only [f2]
    simp [logger.Error, logger.Log, pool.Get]
  · exact f3

theorem Recovery_deferred_brokenPipe (lib : Lib) (cfg : Config) (e : GoError) (w : World)
    (h : brokenPipe (.error e) = true) :
    (Recovery.deferred lib cfg (.error e) w).2 = none ∧
    (Recovery.deferred lib cfg (.error e) w).1.trace =
      w.trace ++ [.log ⟨.ErrorLevel, w.req.Path,
        [zap.Any "error" (.error e),
          zap.ByteString "request" (lib.DumpRequest w.req false)]⟩] ∧
    (Recovery.deferred lib cfg (.error e) w).1.server =
      w.server ++ [.WriteHeader 500, .Write e.Error] ∧
    (Recovery.deferred lib cfg (.error e) w).1.resp.statusCode = 500 := by
  have f := WriteError_frame lib 500 e
    (logger.Error w.req.Path
      [zap.Any "error" (.error e), zap.ByteString "request" (lib.DumpRequest w.req false)] w)
  obtain ⟨f1, f2, f3, -, -⟩ := f
  simp only [Recovery.deferred, h, if_true, PanicValue.asError]
  refine ⟨trivial, ?_, ?_, f3⟩
  · simp only [f1]
    simp [logger.Error, logger.Log]
  · simp only [f2]
    simp [logger.Error, logger.Log]

/-- C3, counterexample: a handler that panics with the plain string "panic" gets the
response body "panic", which contains the text of the panic value. -/
theorem Recovery_body_contains_panic_text :
    (exHandlerPanic exWorld).2 = some (.str "panic") ∧
    PanicValue.plain (.str "panic") = true ∧
    bodyOf (Recovery exLib false newConfig exHandlerPanic exWorld).1.server = "panic" ∧
    strings.Contains (bodyOf (Recovery exLib false newConfig exHandlerPanic exWorld).1.server)
      (PanicValue.text (.str "panic")) = true := by
  decide

/-- C3, amended: for every handler that panics with a plain (non-error) value under the
Recovery filter, the filter returns normally, adds exactly one entry to the sink, at
error level, sets the response status to 500, and sends the client the header 500 and
the fixed text "panic", the same bytes for every panic value; so the body it writes
contains the text of the panic value only when that text occurs in the word "panic". -/
theorem Recovery_plain_panic (lib : Lib) (stack : Bool) (cfg : Config) (chain : Chain)
    (w : World) (v : PanicValue) (hp : (chain w).2 = some v) (hv : v.plain = true) :
    (Recovery lib stack cfg chain w).2 = none ∧
    (∃ e, (Recovery lib stack cfg chain w).1.trace =
        (chain w).1.trace ++ [.poolGet, .log e, .poolPut] ∧ e.Level = .ErrorLevel) ∧
    (entries (Recovery lib stack cfg chain w).1.trace).length =
      (entries (chain w).1.trace).length + 1 ∧
    (Recovery lib stack cfg chain w).1.resp.StatusCode = 500 ∧
    (Recovery lib stack cfg chain w).1.server =
      (chain w).1.server ++ [.WriteHeader 500, .Write "panic"] ∧
    bodyOf (callsSince (chain w).1.server (Recovery lib stack cfg chain w).1.server) =
      "panic" ∧
    (strings.Contains "panic" v.text = false →
      strings.Contains
        (bodyOf (callsSince (chain w).1.server (Recovery lib stack cfg chain w).1.server))
        v.text = false) := by
  rw [Recovery_of_panic lib stack cfg chain w v hp]
  obtain ⟨d1, d2, d3, d4⟩ := Recovery_deferred_defect lib (Recovery.config lib stack cfg) v
    (chain w).1 (plain_not_brokenPipe v hv)
  have hbody : bodyOf (callsSince (chain w).1.server
      (Recovery.deferred lib (Recovery.config lib stack cfg) v (chain w).1).1.server) =
      "panic" := by
    rw [d3, callsSince, List.drop_left]
    rfl
  refine ⟨d1, ⟨_, d2, rfl⟩, ?_, ?_, d3, hbody, ?_⟩
  · simp only [d2, entries_append, entries, List.length_append, List.length_cons,
      List.length_nil]
  · simp [Response.StatusCode, d4]
  · intro hc
    rw [hbody]
    exact hc

/-- A handler that panics with the string "panic" on a fresh response. -/
theorem Recovery_plain_panic_witness :
    (Recovery exLib true newConfig exHandlerPanic exWorld).2 = none ∧
    (Recovery exLib true newConfig exHandlerPanic exWorld).1.server =
      [.WriteHeader 500, .Write "panic"] :=
  have t := Recovery_plain_panic exLib true newConfig exHandlerPanic exWorld (.str "panic")
    rfl rfl
  ⟨t.1, t.2.2.2.2.1⟩

/-- When the classification fails on a nil pointer, the deferred function of `Recovery`
does nothing more and the run-time panic leaves the filter. -/
theorem Recovery_deferred_nil (lib : Lib) (cfg : Config) (v : PanicValue) (w : World)
    (hb : brokenPipe v = none) :
    Recovery.deferred lib cfg v w = (w, some nilDereference) := by
  simp only [Recovery.deferred, hb]

/-- The Recovery filter returns normally when the chain does not panic and when it
panics with a value whose classification completes; a value classified as broken-pipe
is an error, so the assertion `err.(error)` of that branch succeeds; a value whose
classification dereferences nil leaves the filter as a run-time panic. -/
theorem Recovery_returns_when_classified (lib : Lib) (stack : Bool) (cfg : Config)
    (chain : Chain) (w : World) :
    ((chain w).2 = none → (Recovery lib stack cfg chain w).2 = none) ∧
    (∀ v, (chain w).2 = some v → brokenPipe v ≠ none →
      (Recovery lib stack cfg chain w).2 = none) ∧
    (∀ v : PanicValue, brokenPipe v = true → ∃ e, v.asError = some e) ∧
    (∀ v, (chain w).2 = some v → brokenPipe v = none →
      Recovery lib stack cfg chain w = ((chain w).1, some nilDereference)) := by
  refine ⟨?_, ?_, ?_, ?_⟩
  · intro hp
    simp only [Recovery, hp]
  · intro v hp hn
    rw [Recovery_of_panic lib stack cfg chain w v hp]
    cases hb : brokenPipe v with
    | none => exact absurd hb hn
    | some b =>
      cases b with
      | false => exact (Recovery_deferred_defect lib _ v (chain w).1 hb).1
      | true =>
        obtain ⟨e, rfl⟩ := brokenPipe_is_error v hb
        exact (Recovery_deferred_brokenPipe lib _ e (chain w).1 hb).1
  · intro v hb
    obtain ⟨e, rfl⟩ := brokenPipe_is_error v hb
    exact ⟨e, rfl⟩
  · intro v hp hb
    rw [Recovery_of_panic lib stack cfg chain w v hp,
      Recovery_deferred_nil lib _ v (chain w).1 hb]

/-- C4, the code at the failing input: a handler panics with the nil pointer
`(*net.OpError)(nil)`.  The assertion `err.(*net.OpError)` succeeds, `ne.Err`
dereferences nil inside the deferred function, and the Recovery filter does not return
normally: the run-time panic leaves it, with or without stack capture, and the filter
has neither logged nor written anything. -/
theorem Recovery_nil_pointer_panic_escapes :
    (exHandlerNilOpError exWorld).2 = some (.error .nilOpError) ∧
    brokenPipe (.error .nilOpError) = none ∧
    (Recovery exLib false newConfig exHandlerNilOpError exWorld).2 = some nilDereference ∧
    (Recovery exLib true newConfig exHandlerNilOpError exWorld).2 = some nilDereference ∧
    (Recovery exLib true newConfig exHandlerNilOpError exWorld).1.trace = [] ∧
    (Recovery exLib true newConfig exHandlerNilOpError exWorld).1.server = [] := by
  decide

/-- C5, the code at the failing input: a handler panics with a `*net.OpError` over the
`*os.SyscallError` of a write that failed with "broken pipe".  The value is classified
as broken-pipe, the filter passes it to `resp.WriteError`, and the body sent to the
client is the message of the panic error. -/
theorem Recovery_brokenPipe_body_is_message :
    (exHandlerBrokenPipe exWorld).2 = some (.error exBrokenPipe) ∧
    brokenPipe (.error exBrokenPipe) = true ∧
    (Recovery exLib false newConfig exHandlerBrokenPipe exWorld).1.server =
      [.WriteHeader 500, .Write "write tcp: write: broken pipe"] ∧
    exBrokenPipe.Error = "write tcp: write: broken pipe" ∧
    strings.Contains
      (bodyOf (Recovery exLib false newConfig exHandlerBrokenPipe exWorld).1.server)
      (PanicValue.text (.error exBrokenPipe)) = true := by
  decide

/-- The body the Recovery filter sends in each branch: in the genuine-defect branch the
fixed text "panic", whatever the panic value; in the broken-pipe branch the message of
the panic error, which it passes to `WriteError`. -/
theorem Recovery_response_body (lib : Lib) (stack : Bool) (cfg : Config) (chain : Chain)
    (w : World) (v : PanicValue) (hp : (chain w).2 = some v) :
    (brokenPipe v = false →
      (Recovery lib stack cfg chain w).1.server =
        (chain w).1.server ++ [.WriteHeader 500, .Write "panic"]) ∧
    (brokenPipe v = true →
      ∃ e, v = .error e ∧
        (Recovery lib stack cfg chain w).1.server =
          (chain w).1.server ++ [.WriteHeader 500, .Write e.Error]) := by
  rw [Recovery_of_panic lib stack cfg chain w v hp]
  constructor
  · intro hb
    exact (Recovery_deferred_defect lib _ v (chain w).1 hb).2.2.1
  · intro hb
    obtain ⟨e, rfl⟩ := brokenPipe_is_error v hb
    exact ⟨e, rfl, (Recovery_deferred_brokenPipe lib _ e (chain w).1 hb).2.2.1⟩

/-- The two branches on the plain panic and on the broken-pipe panic. -/
theorem Recovery_response_body_witness :
    (Recovery exLib true newConfig exHandlerPanic exWorld).1.server =
      [.WriteHeader 500, .Write "panic"] ∧
    (∃ e, PanicValue.error exBrokenPipe = .error e ∧
      (Recovery exLib true newConfig exHandlerBrokenPipe exWorld).1.server =
        [.WriteHeader 500, .Write e.Error]) :=
  ⟨(Recovery_response_body exLib true newConfig exHandlerPanic exWorld (.str "panic")
      rfl).1 rfl,
   (Recovery_response_body exLib true newConfig exHandlerBrokenPipe exWorld
      (.error exBrokenPipe) rfl).2 (by decide)⟩

/-- C6: for every panic classified as broken-pipe, the Recovery filter adds exactly one
entry, at error level, whose fields are exactly the panic value under "error" and the
header-only request dump under "request": no "stack" field and no custom field, whether
or not Recovery was built with stack capture. -/
theorem Recovery_brokenPipe_entry (lib : Lib) (stack : Bool) (cfg : Config) (chain : Chain)
    (w : World) (v : PanicValue) (hp : (chain w).2 = some v) (hb : brokenPipe v = true) :
    (Recovery lib stack cfg chain w).1.trace =
      (chain w).1.trace ++ [.log ⟨.ErrorLevel, (chain w).1.req.Path,
        [zap.Any "error" v,
          zap.ByteString "request" (lib.DumpRequest (chain w).1.req false)]⟩] ∧
    (entries (Recovery lib stack cfg chain w).1.trace).length =
      (entries (chain w).1.trace).length + 1 := by
  rw [Recovery_of_panic lib stack cfg chain w v hp]
  obtain ⟨e, rfl⟩ := brokenPipe_is_error v hb
  have d := (Recovery_deferred_brokenPipe lib (Recovery.config lib stack cfg) e
    (chain w).1 hb).2.1
  refine ⟨d, ?_⟩
  simp only [d, entries_append, entries, List.length_append, List.length_cons,
    List.length_nil]

/-- A broken-pipe panic under Recovery built with stack capture and a custom field. -/
theorem Recovery_brokenPipe_entry_witness :
    (Recovery exLib true (WithCustomFields [fun _ _ => zap.String "app" "demo"] newConfig)
      exHandlerBrokenPipe exWorld).1.trace =
      [.log ⟨.ErrorLevel, "/items",
        [zap.Any "error" (.error exBrokenPipe), zap.ByteString "request" "POST /items"]⟩] :=
  (Recovery_brokenPipe_entry exLib true
    (WithCustomFields [fun _ _ => zap.String "app" "demo"] newConfig)
    exHandlerBrokenPipe exWorld (.error exBrokenPipe) rfl (by decide)).1

end gzap

/-! ## The access-logging filter: the entry -/

namespace gzap

theorem deferred_entry (cfg : Config) (d : Nat) (reqBody : String) (start : Int)
    (path query : String) (w : World) (h : cfg.skipLogging w.req w.resp = false) :
    Logger.deferred cfg d reqBody start path query w =
      { w with trace := w.trace ++ [.poolGet,
          .log ⟨if w.resp.Error.isSome then .ErrorLevel else cfg.useLoggerLevel w.req w.resp,
            "logging",
            [(match w.req.SelectedRoute with
                | some r => (r.Path, zap.String "title" r.Doc)
                | none => ("", zap.Skip)).2,
              zap.Int "status" w.resp.StatusCode,
              zap.String "method" w.req.Method,
              zap.String "path" path,
              zap.String "route" (match w.req.SelectedRoute with
                | some r => (r.Path, zap.String "title" r.Doc)
                | none => ("", zap.Skip)).1,
              zap.String "query" query,
              zap.String "ip" w.req.RemoteAddr,
              zap.String "user-agent" (Header.Get w.req.Header "User-Agent"),
              zap.Duration "latency" (w.clock - start)] ++
            (if w.enableBody then
              [zap.String "requestBody" reqBody,
                zap.String "responseBody"
                  (if !(skipResponseBody w.req w.resp || cfg.skipResponseBody w.req w.resp) then
                    if cfg.limit > 0 ∧ (len (w.builders d) : Int) ≥ cfg.limit then
                      "larger response body"
                    else w.builders d
                  else "skip response body")]
              else []) ++
            cfg.customFields.map (fun fieldFunc => fieldFunc w.req w.resp) ++
            (match w.resp.Error with
              | some err => [zap.Error err]
              | none => [])⟩,
          .poolPut],
               pool := w.pool ++ [.Get w.pool.length, .Put w.pool.length] } := by
  simp only [Logger.deferred, h, Bool.false_eq_true, if_false, pool.Get, pool.Put, logger.Log,
    List.nil_append]
  cases hb : w.enableBody <;> cases he : w.resp.Error <;> simp

end gzap

namespace gzap

theorem capture_reads (lib : Lib) (cfg : Config) (w : World) (hen : w.enableBody = true)
    (hskip : Logger.hasSkipRequestBody lib cfg w = false) (herr : w.req.Body.err = none) :
    Logger.capture lib cfg (Builder.new w).2 (Builder.new w).1 =
      .proceed
        { (Builder.new w).1 with
          resp := { w.resp with
            ResponseWriter := .bodyWriter w.resp.ResponseWriter w.nextBuilder }
          req := { w.req with Body := io.NopCloser w.req.Body.data } }
        (if cfg.limit > 0 ∧ (len w.req.Body.data : Int) ≥ cfg.limit then
          "larger request body" else w.req.Body.data) := by
  simp only [Logger.hasSkipRequestBody] at hskip
  simp only [Logger.capture, Builder.new, hen, if_true, hskip, Bool.not_false, io.ReadAll, herr]
  split_ifs <;> rfl

/-- The body fields of the entry for any downstream chain, in terms of the duplicate
buffer: when the toggle reads on as the entry is built, the entry of a non-skipped
request carries the requestBody and responseBody fields side by side; when the response
is not exempt and the duplicate buffer holds b, the responseBody text is "larger response
body" if limit > 0 and len(b) >= limit and is b itself otherwise; when the request body
is not exempt and reads as b, the same holds of the requestBody text with its marker. -/
theorem Logger_body_text (lib : Lib) (cfg : Config) (chain : Chain) (w w1 : World)
    (reqBody : String)
    (h : Logger.capture lib cfg (Builder.new w).2 (Builder.new w).1 = .proceed w1 reqBody)
    (hlog : cfg.skipLogging (chain w1).1.req (chain w1).1.resp = false)
    (hen : (chain w1).1.enableBody = true) :
    (∃ e pre post respBody,
      (Logger lib cfg chain w).1.trace = (chain w1).1.trace ++ [.poolGet, .log e, .poolPut] ∧
      e.Fields = pre ++ [zap.String "requestBody" reqBody,
        zap.String "responseBody" respBody] ++ post ∧
      ((skipResponseBody (chain w1).1.req (chain w1).1.resp ||
          cfg.skipResponseBody (chain w1).1.req (chain w1).1.resp) = false →
        respBody =
          (if cfg.limit > 0 ∧
              (len ((chain w1).1.builders w.nextBuilder) : Int) ≥ cfg.limit then
            "larger response body" else (chain w1).1.builders w.nextBuilder) ∧
        (cfg.limit ≤ 0 → respBody = (chain w1).1.builders w.nextBuilder))) ∧
    (w.enableBody = true → Logger.hasSkipRequestBody lib cfg w = false →
      w.req.Body.err = none →
      reqBody =
        (if cfg.limit > 0 ∧ (len w.req.Body.data : Int) ≥ cfg.limit then
          "larger request body" else w.req.Body.data) ∧
      (cfg.limit ≤ 0 → reqBody = w.req.Body.data)) := by
  constructor
  · rw [Logger_of_proceed lib cfg chain w w1 reqBody h,
      deferred_entry cfg _ reqBody w1.clock w1.req.Path w1.req.RawQuery (chain w1).1 hlog]
    refine ⟨_,
      [(match (chain w1).1.req.SelectedRoute with
          | some r => (r.Path, zap.String "title" r.Doc)
          | none => ("", zap.Skip)).2,
        zap.Int "status" (chain w1).1.resp.StatusCode,
        zap.String "method" (chain w1).1.req.Method,
        zap.String "path" w1.req.Path,
        zap.String "route" (match (chain w1).1.req.SelectedRoute with
          | some r => (r.Path, zap.String "title" r.Doc)
          | none => ("", zap.Skip)).1,
        zap.String "query" w1.req.RawQuery,
        zap.String "ip" (chain w1).1.req.RemoteAddr,
        zap.String "user-agent" (Header.Get (chain w1).1.req.Header "User-Agent"),
        zap.Duration "latency" ((chain w1).1.clock - w1.clock)],
      cfg.customFields.map (fun fieldFunc => fieldFunc (chain w1).1.req (chain w1).1.resp) ++
        (match (chain w1).1.resp.Error with
          | some err => [zap.Error err]
          | none => []),
      (if !(skipResponseBody (chain w1).1.req (chain w1).1.resp ||
            cfg.skipResponseBody (chain w1).1.req (chain w1).1.resp) then
          if cfg.limit > 0 ∧
              (len ((chain w1).1.builders (Builder.new w).2) : Int) ≥ cfg.limit then
            "larger response body"
          else (chain w1).1.builders (Builder.new w).2
        else "skip response body"),
      rfl, ?_, ?_⟩
    · simp only [hen, if_true, List.append_assoc]
    · intro hs
      have hd : (Builder.new w).2 = w.nextBuilder := rfl
      simp only [hs, Bool.not_false, if_true, hd, true_and]
      intro hl
      have : ¬ (cfg.limit > 0 ∧
          (len ((chain w1).1.builders w.nextBuilder) : Int) ≥ cfg.limit) := by omega
      simp only [this, if_false]
  · intro h1 h2 h3
    have c := capture_reads lib cfg w h1 h2 h3
    rw [h] at c
    injection c with _ hr
    refine ⟨hr, ?_⟩
    intro hl
    have : ¬ (cfg.limit > 0 ∧ (len w.req.Body.data : Int) ≥ cfg.limit) := by omega
    rw [hr]
    simp only [this, if_false]

/-- Limit 3: the request body "hello" is replaced by the marker, the response body "ok"
is logged whole. -/
theorem Logger_body_text_witness :
    ∃ e pre post,
      (Logger exLib (WithBodyLimit 3 newConfig) exHandlerOk exWorldBody).1.trace =
        [.poolGet, .log e, .poolPut] ∧
      e.Fields = pre ++ [zap.String "requestBody" "larger request body",
        zap.String "responseBody" "ok"] ++ post := by
  have t := Logger_body_text exLib (WithBodyLimit 3 newConfig) exHandlerOk exWorldBody
    { (Builder.new exWorldBody).1 with
      resp := { exResponse with ResponseWriter := .bodyWriter .server 0 }
      req := { exRequest with Body := io.NopCloser "hello" } }
    "larger request body" rfl rfl rfl
  obtain ⟨e, pre, post, respBody, ht, hf, hr⟩ := t.1
  have hb := (hr rfl).1
  refine ⟨e, pre, post, ht, ?_⟩
  rw [hf, hb]
  rfl

end gzap

namespace gzap

/-- C8, counterexample: with body capture on and a request body whose read fails, the
response carries the read error as its terminal error and the request is not skipped,
yet the Logger filter emits no entry, at error level or any other, no field holds the
error, and the chain is not run: the handler would have sent "ok". -/
theorem Logger_read_failure_error_not_logged :
    (Logger exLib newConfig exHandlerOk exWorldReadFails).1.resp.Error =
      some (.errorString "unexpected EOF") ∧
    newConfig.skipLogging (Logger exLib newConfig exHandlerOk exWorldReadFails).1.req
      (Logger exLib newConfig exHandlerOk exWorldReadFails).1.resp = false ∧
    entries (Logger exLib newConfig exHandlerOk exWorldReadFails).1.trace = [] ∧
    (Logger exLib newConfig exHandlerOk exWorldReadFails).1.trace = [] ∧
    strings.Contains
      (bodyOf (Logger exLib newConfig exHandlerOk exWorldReadFails).1.server) "ok" = false ∧
    bodyOf (exHandlerOk exWorld).1.server = "ok" := by
  decide

/-- C8, amended: for every request the Logger filter passes to the downstream chain,
that is not skipped and whose response carries a terminal error when the chain is done,
the Logger filter emits its entry at error level, the error is the last field of the
entry, replacing the level-selection function by any other changes nothing, and the
chain has run to its end: its outcome, the response and the bytes sent are those the
chain left. -/
theorem Logger_terminal_error (lib : Lib) (cfg : Config) (chain : Chain) (w w1 : World)
    (reqBody : String) (err : GoError)
    (h : Logger.capture lib cfg (Builder.new w).2 (Builder.new w).1 = .proceed w1 reqBody)
    (hlog : cfg.skipLogging (chain w1).1.req (chain w1).1.resp = false)
    (herr : (chain w1).1.resp.Error = some err) :
    (∃ e, (Logger lib cfg chain w).1.trace =
        (chain w1).1.trace ++ [.poolGet, .log e, .poolPut] ∧
      e.Level = .ErrorLevel ∧ e.Fields.getLast? = some (zap.Error err)) ∧
    (∀ f : Request → Response → Level,
      Logger lib { cfg with useLoggerLevel := f } chain w = Logger lib cfg chain w) ∧
    (Logger lib cfg chain w).2 = (chain w1).2 ∧
    (Logger lib cfg chain w).1.resp = (chain w1).1.resp ∧
    (Logger lib cfg chain w).1.server = (chain w1).1.server := by
  have hL := Logger_of_proceed lib cfg chain w w1 reqBody h
  have hE := deferred_entry cfg (Builder.new w).2 reqBody w1.clock w1.req.Path
    w1.req.RawQuery (chain w1).1 hlog
  refine ⟨?_, ?_, ?_, ?_, ?_⟩
  · rw [hL, hE]
    refine ⟨_, rfl, ?_, ?_⟩
    · simp [herr]
    · simp only [herr]
      rw [List.getLast?_append]
      rfl
  · intro f
    have hf : Logger.capture lib { cfg with useLoggerLevel := f } (Builder.new w).2
        (Builder.new w).1 = .proceed w1 reqBody := h
    rw [Logger_of_proceed lib _ chain w w1 reqBody hf, hL]
    have hlogf : ({ cfg with useLoggerLevel := f } : Config).skipLogging (chain w1).1.req
        (chain w1).1.resp = false := hlog
    rw [deferred_entry _ (Builder.new w).2 reqBody w1.clock w1.req.Path w1.req.RawQuery
      (chain w1).1 hlogf, hE]
    simp [herr]
  · rw [hL]
  · rw [hL, hE]
  · rw [hL, hE]

/-- A handler that ends with a terminal error and status 404: the default policy would
say warn, the entry is at error level. -/
theorem Logger_terminal_error_witness :
    useLoggerLevel exRequest
      (exHandlerError { exWorld with builders := fun i => if i = 0 then "" else "",
                                     nextBuilder := 1 }).1.resp = .WarnLevel ∧
    ∃ e, (Logger exLib newConfig exHandlerError exWorld).1.trace =
        [.poolGet, .log e, .poolPut] ∧
      e.Level = .ErrorLevel ∧
      e.Fields.getLast? = some (zap.Error (.errorString "no such item")) :=
  ⟨by decide,
   (Logger_terminal_error exLib newConfig exHandlerError exWorld
      { exWorld with builders := fun i => if i = 0 then "" else "", nextBuilder := 1 }
      "skip request body" (.errorString "no such item") rfl rfl rfl).1⟩

end gzap

/-! ## The body-capturing writer -/

namespace gzap

theorem foldl_append_string (acc : String) (l : List String) :
    l.foldl (fun r s => r ++ s) acc = acc ++ l.foldl (fun r s => r ++ s) "" := by
  induction l generalizing acc with
  | nil => simp
  | cons b bs ih =>
    simp only [List.foldl_cons, String.empty_append]
    rw [ih (acc ++ b), ih b, String.append_assoc]

theorem join_cons (b : String) (bs : List String) :
    String.join (b :: bs) = b ++ String.join bs := by
  simp only [String.join, List.foldl_cons, String.empty_append]
  exact foldl_append_string b bs

theorem Write_result (lib : Lib) (rw : ResponseWriter) (b : String) (w : World) :
    (ResponseWriter.Write lib rw b w).2 = lib.serverWrite w.server b := by
  induction rw generalizing w with
  | server => rfl
  | bodyWriter inner d ih =>
    simp only [ResponseWriter.Write, bodyWriter.Write]
    rw [ih (Builder.Write d b w)]
    rfl

theorem Write_builders_other (lib : Lib) (rw : ResponseWriter) (b : String) (w : World)
    (d : Nat) (hd : d ∉ rw.dups) :
    (ResponseWriter.Write lib rw b w).1.builders d = w.builders d := by
  induction rw generalizing w with
  | server => rfl
  | bodyWriter inner d1 ih =>
    simp only [ResponseWriter.dups, List.mem_cons, not_or] at hd
    simp only [ResponseWriter.Write, bodyWriter.Write]
    rw [ih (Builder.Write d1 b w) hd.2]
    simp [Builder.Write, hd.1]

theorem Write_bodyWriter_builder (lib : Lib) (inner : ResponseWriter) (d : Nat) (b : String)
    (w : World) (hd : d ∉ inner.dups) :
    (ResponseWriter.Write lib (.bodyWriter inner d) b w).1.builders d = w.builders d ++ b := by
  simp only [ResponseWriter.Write, bodyWriter.Write]
  rw [Write_builders_other lib inner b (Builder.Write d b w) d hd]
  simp [Builder.Write]

theorem writeAll_bodyWriter (lib : Lib) (inner : ResponseWriter) (d : Nat) (bs : List String)
    (w : World) (hd : d ∉ inner.dups) :
    (writeAll lib (.bodyWriter inner d) bs w).1.builders d = w.builders d ++ String.join bs ∧
    (writeAll lib (.bodyWriter inner d) bs w).1.server = w.server ++ bs.map .Write ∧
    (writeAll lib (.bodyWriter inner d) bs w).2 = serverResults lib w.server bs := by
  induction bs generalizing w with
  | nil => simp [writeAll, serverResults, String.join]
  | cons b bs ih =>
    obtain ⟨i1, i2, i3⟩ := ih (ResponseWriter.Write lib (.bodyWriter inner d) b w).1
    have hb := Write_bodyWriter_builder lib inner d b w hd
    have hs := (Write_frame lib (.bodyWriter inner d) b w).1
    have hr := Write_result lib (.bodyWriter inner d) b w
    simp only [writeAll, serverResults]
    refine ⟨?_, ?_, ?_⟩
    · rw [i1, hb, join_cons, String.append_assoc]
    · rw [i2, hs]
      simp
    · rw [i3, hs, hr]

/-- C9: `bodyWriter.Write(b)` first appends b to the duplicate buffer, leaving every
other builder alone, then hands the identical b to the writer it embeds and returns
what that writer returns; over the server's writer, possibly under other body writers
with buffers of their own, one write leaves the buffer extended by exactly b, sends
exactly b, and returns the server's (n, err); a sequence of writes leaves the buffer
extended by their concatenation in order, sends them in order, and returns the
server's results. -/
theorem bodyWriter_Write_duplicates (lib : Lib) (inner : ResponseWriter) (d : Nat)
    (b : String) (bs : List String) (w : World) (hd : d ∉ inner.dups) :
    (∀ under : String → World → World × (Int × Option GoError),
      bodyWriter.Write under d b w = under b (Builder.Write d b w) ∧
      (Builder.Write d b w).builders d = w.builders d ++ b ∧
      (∀ i, i ≠ d → (Builder.Write d b w).builders i = w.builders i) ∧
      (Builder.Write d b w).server = w.server) ∧
    (ResponseWriter.Write lib (.bodyWriter inner d) b w).1.builders d = w.builders d ++ b ∧
    (ResponseWriter.Write lib (.bodyWriter inner d) b w).1.server = w.server ++ [.Write b] ∧
    (ResponseWriter.Write lib (.bodyWriter inner d) b w).2 = lib.serverWrite w.server b ∧
    (ResponseWriter.Write lib (.bodyWriter inner d) b w).2 =
      (ResponseWriter.Write lib inner b w).2 ∧
    (writeAll lib (.bodyWriter inner d) bs w).1.builders d = w.builders d ++ String.join bs ∧
    (writeAll lib (.bodyWriter inner d) bs w).1.server = w.server ++ bs.map .Write ∧
    (writeAll lib (.bodyWriter inner d) bs w).2 = serverResults lib w.server bs := by
  obtain ⟨a1, a2, a3⟩ := writeAll_bodyWriter lib inner d bs w hd
  refine ⟨?_, Write_bodyWriter_builder lib inner d b w hd,
    (Write_frame lib (.bodyWriter inner d) b w).1, Write_result lib _ b w, ?_, a1, a2, a3⟩
  · intro under
    refine ⟨rfl, ?_, ?_, rfl⟩
    · simp [Builder.Write]
    · intro i hi
      simp [Builder.Write, hi]
  · rw [Write_result, Write_result]

/-- Two writes through a body writer over a server that takes one byte and fails: the
buffer holds both writes whole and each call returns the server's short, failed result. -/
theorem bodyWriter_Write_duplicates_witness :
    (writeAll exLibShort (.bodyWriter .server 0) ["ab", "cd"] exWorld).1.builders 0 = "abcd" ∧
    (writeAll exLibShort (.bodyWriter .server 0) ["ab", "cd"] exWorld).1.server =
      [.Write "ab", .Write "cd"] ∧
    (writeAll exLibShort (.bodyWriter .server 0) ["ab", "cd"] exWorld).2 =
      [(1, some (.errorString "short write")), (1, some (.errorString "short write"))] := by
  have t := bodyWriter_Write_duplicates exLibShort .server 0 "ab" ["ab", "cd"] exWorld
    (by decide)
  obtain ⟨-, -, -, -, -, t1, t2, t3⟩ := t
  exact ⟨t1, t2, t3⟩

/-! ## The access-logging filter: the logged bodies -/

theorem Response_WriteHeader_eq (n : Int) (w : World) :
    Response.WriteHeader n w =
      { w with resp := { w.resp with statusCode := n },
               server := w.server ++ [.WriteHeader n] } := by
  simp only [Response.WriteHeader, WriteHeader_eq]

theorem respond_frame (lib : Lib) (inner : ResponseWriter) (d : Nat)
    (calls : List WriterCall) (w : World)
    (hw : w.resp.ResponseWriter = .bodyWriter inner d) (hd : d ∉ inner.dups) :
    (respond lib calls w).builders d = w.builders d ++ bodyOf calls ∧
    (respond lib calls w).server = w.server ++ calls ∧
    (respond lib calls w).enableBody = w.enableBody ∧
    (respond lib calls w).trace = w.trace ∧
    (respond lib calls w).req = w.req := by
  induction calls generalizing w with
  | nil => simp [respond, bodyOf]
  | cons c t ih =>
    cases c with
    | WriteHeader n =>
      have h1 : (Response.WriteHeader n w).resp.ResponseWriter = .bodyWriter inner d := by
        rw [Response_WriteHeader_eq]
        exact hw
      obtain ⟨i1, i2, i3, i4, i5⟩ := ih (Response.WriteHeader n w) h1
      simp only [respond, bodyOf]
      rw [i1, i2, i3, i4, i5, Response_WriteHeader_eq]
      simp
    | Write b =>
      have f := Write_frame lib w.resp.ResponseWriter b w
      have hb : (ResponseWriter.Write lib w.resp.ResponseWriter b w).1.builders d =
          w.builders d ++ b := by
        rw [hw]
        exact Write_bodyWriter_builder lib inner d b w hd
      have h1 : (Response.Write lib b w).1.resp.ResponseWriter = .bodyWriter inner d := by
        show (ResponseWriter.Write lib w.resp.ResponseWriter b w).1.resp.ResponseWriter = _
        rw [f.2.2.1]
        exact hw
      obtain ⟨i1, i2, i3, i4, i5⟩ := ih (Response.Write lib b w).1 h1
      simp only [respond, bodyOf]
      rw [i1, i2, i3, i4, i5]
      refine ⟨?_, ?_, f.2.2.2.2.1, f.2.1, f.2.2.2.1⟩
      · show (ResponseWriter.Write lib w.resp.ResponseWriter b w).1.builders d ++ bodyOf t = _
        rw [hb, String.append_assoc]
      · show (ResponseWriter.Write lib w.resp.ResponseWriter b w).1.server ++ t = _
        rw [f.1]
        simp

theorem capture_installs (lib : Lib) (cfg : Config) (w : World) (hen : w.enableBody = true)
    (hok : Logger.hasSkipRequestBody lib cfg w = true ∨ w.req.Body.err = none) :
    ∃ w1 reqBody,
      Logger.capture lib cfg (Builder.new w).2 (Builder.new w).1 = .proceed w1 reqBody ∧
      w1.resp.ResponseWriter = .bodyWriter w.resp.ResponseWriter w.nextBuilder ∧
      w1.builders w.nextBuilder = "" ∧ w1.enableBody = true ∧ w1.server = w.server ∧
      w1.trace = w.trace ∧
      (Logger.hasSkipRequestBody lib cfg w = false →
        reqBody = (if cfg.limit > 0 ∧ (len w.req.Body.data : Int) ≥ cfg.limit then
          "larger request body" else w.req.Body.data)) := by
  cases hsk : Logger.hasSkipRequestBody lib cfg w with
  | true =>
    have hsk2 := hsk
    simp only [Logger.hasSkipRequestBody] at hsk2
    simp only [Logger.capture, Builder.new, hen, if_true, hsk2, Bool.not_true,
      Bool.false_eq_true, if_false]
    refine ⟨_, _, rfl, rfl, ?_, rfl, rfl, rfl, ?_⟩
    · simp
    · intro h
      cases h
  | false =>
    have herr : w.req.Body.err = none := by
      rcases hok with h | h
      · rw [hsk] at h
        cases h
      · exact h
    refine ⟨_, _, capture_reads lib cfg w hen hsk herr, rfl, ?_, hen, rfl, rfl, fun _ => rfl⟩
    simp [Builder.new]

theorem deferred_frame (cfg : Config) (d : Nat) (reqBody : String) (start : Int)
    (path query : String) (w : World) :
    (Logger.deferred cfg d reqBody start path query w).resp = w.resp ∧
    (Logger.deferred cfg d reqBody start path query w).req = w.req ∧
    (Logger.deferred cfg d reqBody start path query w).server = w.server ∧
    (Logger.deferred cfg d reqBody start path query w).enableBody = w.enableBody := by
  cases h : cfg.skipLogging w.req w.resp with
  | true =>
    rw [deferred_skip cfg d reqBody start path query w h]
    exact ⟨rfl, rfl, rfl, rfl⟩
  | false =>
    rw [deferred_entry cfg d reqBody start path query w h]
    exact ⟨rfl, rfl, rfl, rfl⟩

/-- C7: with body capture on, for every limit, every request whose body reads as the
bytes b (or is exempt) and every handler that makes any sequence of `WriteHeader` and
`Write` calls on the response, the client receives exactly those calls, and the entry of
the request, when it is not skipped, carries after its nine leading fields the
requestBody and responseBody fields side by side.  When the request body is not exempt,
the requestBody text is "larger request body" if limit > 0 and len(b) >= limit and is b
itself otherwise.  When the response is not exempt, with r the bytes the handler wrote
in order, the responseBody text is "larger response body" if limit > 0 and
len(r) >= limit and is r itself otherwise.  So under a limit <= 0 both texts are the
whole body, and no text is a truncated body. -/
theorem Logger_body_round_trip (lib : Lib) (cfg : Config) (calls : List WriterCall)
    (w : World) (hen : w.enableBody = true)
    (hfresh : w.nextBuilder ∉ w.resp.ResponseWriter.dups)
    (hok : Logger.hasSkipRequestBody lib cfg w = true ∨ w.req.Body.err = none)
    (hlog : cfg.skipLogging (Logger lib cfg (handlerOf lib calls) w).1.req
      (Logger lib cfg (handlerOf lib calls) w).1.resp = false) :
    ∃ e pre post reqBody respBody,
      (Logger lib cfg (handlerOf lib calls) w).1.trace =
        w.trace ++ [.poolGet, .log e, .poolPut] ∧
      e.Fields = pre ++ [zap.String "requestBody" reqBody,
        zap.String "responseBody" respBody] ++ post ∧
      pre.length = 9 ∧
      (Logger lib cfg (handlerOf lib calls) w).1.server = w.server ++ calls ∧
      (Logger.hasSkipRequestBody lib cfg w = false →
        reqBody =
          (if cfg.limit > 0 ∧ (len w.req.Body.data : Int) ≥ cfg.limit then
            "larger request body" else w.req.Body.data) ∧
        (cfg.limit ≤ 0 → reqBody = w.req.Body.data)) ∧
      ((skipResponseBody (Logger lib cfg (handlerOf lib calls) w).1.req
            (Logger lib cfg (handlerOf lib calls) w).1.resp ||
          cfg.skipResponseBody (Logger lib cfg (handlerOf lib calls) w).1.req
            (Logger lib cfg (handlerOf lib calls) w).1.resp) = false →
        respBody =
          (if cfg.limit > 0 ∧ (len (bodyOf calls) : Int) ≥ cfg.limit then
            "larger response body" else bodyOf calls) ∧
        (cfg.limit ≤ 0 → respBody = bodyOf calls)) := by
  obtain ⟨w1, reqBody, hc, hw, hb, he, hs, ht, hq⟩ := capture_installs lib cfg w hen hok
  have hL := Logger_of_proceed lib cfg (handlerOf lib calls) w w1 reqBody hc
  obtain ⟨r1, r2, r3, r4, -⟩ :=
    respond_frame lib w.resp.ResponseWriter w.nextBuilder calls w1 hw hfresh
  have hch : (handlerOf lib calls w1).1 = respond lib calls w1 := rfl
  have hF := deferred_frame cfg (Builder.new w).2 reqBody w1.clock w1.req.Path
    w1.req.RawQuery (handlerOf lib calls w1).1
  have hreq : (Logger lib cfg (handlerOf lib calls) w).1.req = (handlerOf lib calls w1).1.req := by
    rw [hL]
    exact hF.2.1
  have hresp : (Logger lib cfg (handlerOf lib calls) w).1.resp =
      (handlerOf lib calls w1).1.resp := by
    rw [hL]
    exact hF.1
  rw [hreq, hresp] at hlog ⊢
  have hE := deferred_entry cfg (Builder.new w).2 reqBody w1.clock w1.req.Path
    w1.req.RawQuery (handlerOf lib calls w1).1 hlog
  have hen2 : (handlerOf lib calls w1).1.enableBody = true := by
    rw [hch, r3, he]
  have hbd : (handlerOf lib calls w1).1.builders (Builder.new w).2 = bodyOf calls := by
    show (handlerOf lib calls w1).1.builders w.nextBuilder = bodyOf calls
    rw [hch, r1, hb]
    simp
  have htr : (handlerOf lib calls w1).1.trace = w.trace := by
    rw [hch, r4, ht]
  rw [hL, hE, ← htr]
  refine ⟨_,
    [(match (handlerOf lib calls w1).1.req.SelectedRoute with
        | some r => (r.Path, zap.String "title" r.Doc)
        | none => ("", zap.Skip)).2,
      zap.Int "status" (handlerOf lib calls w1).1.resp.StatusCode,
      zap.String "method" (handlerOf lib calls w1).1.req.Method,
      zap.String "path" w1.req.Path,
      zap.String "route" (match (handlerOf lib calls w1).1.req.SelectedRoute with
        | some r => (r.Path, zap.String "title" r.Doc)
        | none => ("", zap.Skip)).1,
      zap.String "query" w1.req.RawQuery,
      zap.String "ip" (handlerOf lib calls w1).1.req.RemoteAddr,
      zap.String "user-agent" (Header.Get (handlerOf lib calls w1).1.req.Header "User-Agent"),
      zap.Duration "latency" ((handlerOf lib calls w1).1.clock - w1.clock)],
    cfg.customFields.map
        (fun fieldFunc => fieldFunc (handlerOf lib calls w1).1.req
          (handlerOf lib calls w1).1.resp) ++
      (match (handlerOf lib calls w1).1.resp.Error with
        | some err => [zap.Error err]
        | none => []),
    reqBody,
    (if !(skipResponseBody (handlerOf lib calls w1).1.req (handlerOf lib calls w1).1.resp ||
          cfg.skipResponseBody (handlerOf lib calls w1).1.req
            (handlerOf lib calls w1).1.resp) then
        if cfg.limit > 0 ∧ (len (bodyOf calls) : Int) ≥ cfg.limit then
          "larger response body"
        else bodyOf calls
      else "skip response body"),
    rfl, ?_, rfl, ?_, ?_, ?_⟩
  · simp only [hen2, if_true, hbd, List.append_assoc]
  · show (handlerOf lib calls w1).1.server = _
    rw [hch, r2, hs]
  · intro hsk
    refine ⟨hq hsk, ?_⟩
    intro hl
    have : ¬ (cfg.limit > 0 ∧ (len w.req.Body.data : Int) ≥ cfg.limit) := by omega
    rw [hq hsk]
    simp only [this, if_false]
  · intro hskr
    simp only [hskr, Bool.not_false, if_true, true_and]
    intro hl
    have : ¬ (cfg.limit > 0 ∧ (len (bodyOf calls) : Int) ≥ cfg.limit) := by omega
    simp only [this, if_false]

/-- Limit 3: the request body "hello" is replaced by the marker; the handler writes the
status 201 and the bytes "a" and "b", the client receives them and the response body
"ab" is logged whole. -/
theorem Logger_body_round_trip_witness :
    ∃ e pre post,
      (Logger exLib (WithBodyLimit 3 newConfig)
        (handlerOf exLib [.WriteHeader 201, .Write "a", .Write "b"]) exWorldBody).1.trace =
        [.poolGet, .log e, .poolPut] ∧
      e.Fields = pre ++ [zap.String "requestBody" "larger request body",
        zap.String "responseBody" "ab"] ++ post ∧
      (Logger exLib (WithBodyLimit 3 newConfig)
        (handlerOf exLib [.WriteHeader 201, .Write "a", .Write "b"]) exWorldBody).1.server =
        [.WriteHeader 201, .Write "a", .Write "b"] := by
  obtain ⟨e, pre, post, reqBody, respBody, ht, hf, -, hs, hq, hr⟩ :=
    Logger_body_round_trip exLib (WithBodyLimit 3 newConfig)
      [.WriteHeader 201, .Write "a", .Write "b"] exWorldBody rfl (by decide)
      (Or.inr rfl) (by decide)
  have hq1 := (hq (by decide)).1
  have hr1 := (hr (by decide)).1
  refine ⟨e, pre, post, ht, ?_, hs⟩
  rw [hf, hq1, hr1]
  rfl

/-! ## The access-logging filter: the request body the chain sees -/

/-- C10: when body capture is on, the request body is not exempt and its read succeeds
with the bytes b, the Logger filter runs the chain on a world whose request body is a
fresh stream over b: reading it to the end yields exactly b and no error, and a second
read yields nothing. -/
theorem Logger_replays_request_body (lib : Lib) (cfg : Config) (chain : Chain) (w : World)
    (hen : w.enableBody = true) (hskip : Logger.hasSkipRequestBody lib cfg w = false)
    (herr : w.req.Body.err = none) :
    ∃ w1 reqBody,
      Logger.capture lib cfg (Builder.new w).2 (Builder.new w).1 = .proceed w1 reqBody ∧
      Logger lib cfg chain w =
        (Logger.deferred cfg (Builder.new w).2 reqBody w1.clock w1.req.Path w1.req.RawQuery
          (chain w1).1, (chain w1).2) ∧
      w1.req.Body = io.NopCloser w.req.Body.data ∧
      (io.ReadAll w1.req.Body).1 = w.req.Body.data ∧
      (io.ReadAll w1.req.Body).2.1 = none ∧
      (io.ReadAll (io.ReadAll w1.req.Body).2.2).1 = "" ∧
      (io.ReadAll (io.ReadAll w1.req.Body).2.2).2.1 = none := by
  have c := capture_reads lib cfg w hen hskip herr
  exact ⟨_, _, c, Logger_of_proceed lib cfg chain w _ _ c, rfl, rfl, rfl, rfl, rfl⟩

/-- The request body "hello" of `exWorldBody` reaches the handler whole. -/
theorem Logger_replays_request_body_witness :
    ∃ w1 reqBody,
      Logger.capture exLib newConfig (Builder.new exWorldBody).2 (Builder.new exWorldBody).1 =
        .proceed w1 reqBody ∧
      (io.ReadAll w1.req.Body).1 = "hello" := by
  obtain ⟨w1, reqBody, t1, -, -, t4, -⟩ :=
    Logger_replays_request_body exLib newConfig exHandlerOk exWorldBody rfl rfl rfl
  exact ⟨w1, reqBody, t1, t4⟩

end gzap

/-! ## The access-logging filter: reaching the chain -/

namespace gzap

theorem Write_pool (lib : Lib) (rw : ResponseWriter) (b : String) (w : World) :
    (ResponseWriter.Write lib rw b w).1.pool = w.pool := by
  induction rw generalizing w with
  | server => rfl
  | bodyWriter inner d ih =>
    simp only [ResponseWriter.Write, bodyWriter.Write]
    rw [ih (Builder.Write d b w)]
    rfl

theorem WriteErrorString_more (lib : Lib) (s : Int) (reason : String) (w : World) :
    (Response.WriteErrorString lib s reason w).1.pool = w.pool ∧
    (Response.WriteErrorString lib s reason w).1.resp.ResponseWriter =
      w.resp.ResponseWriter := by
  simp only [Response.WriteErrorString, Response.Write, Response.WriteHeader, WriteHeader_eq]
  split_ifs with h
  · have f := Write_frame lib w.resp.ResponseWriter reason
      { w with resp := { w.resp with err := some (.errorString reason), statusCode := s },
               server := w.server ++ [.WriteHeader s] }
    have g := Write_pool lib w.resp.ResponseWriter reason
      { w with resp := { w.resp with err := some (.errorString reason), statusCode := s },
               server := w.server ++ [.WriteHeader s] }
    obtain ⟨-, -, f3, -⟩ := f
    simp_all
  · have f := Write_frame lib w.resp.ResponseWriter reason
      { w with resp := { w.resp with statusCode := s },
               server := w.server ++ [.WriteHeader s] }
    have g := Write_pool lib w.resp.ResponseWriter reason
      { w with resp := { w.resp with statusCode := s },
               server := w.server ++ [.WriteHeader s] }
    obtain ⟨-, -, f3, -⟩ := f
    simp_all

theorem WriteError_more (lib : Lib) (s : Int) (err : GoError) (w : World) :
    (Response.WriteError lib s err w).1.pool = w.pool ∧
    (Response.WriteError lib s err w).1.resp.ResponseWriter = w.resp.ResponseWriter := by
  have f := WriteErrorString_more lib s err.Error
    { w with resp := { w.resp with err := some err } }
  simpa [Response.WriteError] using f

theorem capture_aborts_world (lib : Lib) (cfg : Config) (w : World) (err : GoError)
    (hen : w.enableBody = true) (hskip : Logger.hasSkipRequestBody lib cfg w = false)
    (herr : w.req.Body.err = some err) :
    ∃ w1, Logger.capture lib cfg (Builder.new w).2 (Builder.new w).1 = .aborted w1 ∧
      w1.trace = w.trace ∧ w1.pool = w.pool ∧ w1.resp.statusCode = 500 ∧
      w1.resp.err = some err ∧
      w1.server = w.server ++ [.WriteHeader 500, .Write err.Error] ∧
      w1.resp.ResponseWriter = .bodyWriter w.resp.ResponseWriter w.nextBuilder := by
  simp only [Logger.hasSkipRequestBody] at hskip
  simp only [Logger.capture, Builder.new, hen, if_true, hskip, Bool.not_false, io.ReadAll, herr]
  refine ⟨_, rfl, ?_, ?_, ?_, ?_, ?_, ?_⟩
  · rw [(WriteError_frame lib 500 err _).1]
  · rw [(WriteError_more lib 500 err _).1]
  · exact (WriteError_frame lib 500 err _).2.2.1
  · exact (WriteError_frame lib 500 err _).2.2.2.2
  · rw [(WriteError_frame lib 500 err _).2.1]
  · rw [(WriteError_more lib 500 err _).2]

/-- C11: when body capture is on, the request body is not exempt and its read fails with
an error, the Logger filter ends in one world whatever the chain is (the chain is not
invoked): status 500, the error on the response, the header 500 and the message of the
error sent, no panic; when capture is off, the body is exempt or the read succeeds, the
outcome of the filter is its deferred function applied to the one result of the chain
on one world, with the panic of the chain, if any, passed on. -/
theorem Logger_chain_invocation (lib : Lib) (cfg : Config) (w : World) :
    (∀ err, w.enableBody = true → Logger.hasSkipRequestBody lib cfg w = false →
      w.req.Body.err = some err →
      ∃ w1, (∀ chain : Chain, Logger lib cfg chain w = (w1, none)) ∧
        w1.resp.StatusCode = 500 ∧ w1.resp.Error = some err ∧
        w1.server = w.server ++ [.WriteHeader 500, .Write err.Error]) ∧
    ((w.enableBody = false ∨ Logger.hasSkipRequestBody lib cfg w = true ∨
        w.req.Body.err = none) →
      ∃ w1 reqBody, ∀ chain : Chain,
        Logger lib cfg chain w =
          (Logger.deferred cfg w.nextBuilder reqBody w1.clock w1.req.Path w1.req.RawQuery
            (chain w1).1, (chain w1).2)) := by
  constructor
  · intro err hen hskip herr
    obtain ⟨w1, hc, -, -, hs, he, hsv, -⟩ := capture_aborts_world lib cfg w err hen hskip herr
    refine ⟨w1, fun chain => Logger_of_aborted lib cfg chain w w1 hc, ?_, he, hsv⟩
    simp [Response.StatusCode, hs]
  · intro hok
    obtain ⟨w1, reqBody, hc⟩ := capture_proceeds lib cfg w hok
    exact ⟨w1, reqBody, fun chain => Logger_of_proceed lib cfg chain w w1 reqBody hc⟩

/-- A handler that ticks the clock once: under the read failure the clock has not moved
and the response is the 500, with the body read the clock has moved by exactly one. -/
theorem Logger_chain_invocation_witness :
    (Logger exLib newConfig exHandlerTick exWorldReadFails).1.clock = exWorldReadFails.clock ∧
    (Logger exLib newConfig exHandlerTick exWorldReadFails).1.server =
      [.WriteHeader 500, .Write "unexpected EOF"] ∧
    (Logger exLib newConfig exHandlerTick exWorldBody).1.clock = exWorldBody.clock + 1 := by
  obtain ⟨w1, h1, -, -, h4⟩ := (Logger_chain_invocation exLib newConfig exWorldReadFails).1
    (.errorString "unexpected EOF") rfl rfl rfl
  refine ⟨by decide, ?_, by decide⟩
  rw [h1 exHandlerTick]
  exact h4

end gzap

/-! ## The access-logging filter: the response writer -/

namespace gzap

theorem capture_writer (lib : Lib) (cfg : Config) (w : World) :
    (Logger.capture lib cfg (Builder.new w).2 (Builder.new w).1).world.resp.ResponseWriter =
      (if w.enableBody then .bodyWriter w.resp.ResponseWriter w.nextBuilder
        else w.resp.ResponseWriter) := by
  cases hen : w.enableBody with
  | false => simp [Logger.capture, Builder.new, hen, Captured.world]
  | true =>
    cases hsk : Logger.hasSkipRequestBody lib cfg w with
    | true =>
      simp only [Logger.hasSkipRequestBody] at hsk
      simp [Logger.capture, Builder.new, hen, hsk, Captured.world]
    | false =>
      cases herr : w.req.Body.err with
      | none =>
        rw [capture_reads lib cfg w hen hsk herr]
        simp [Captured.world]
      | some err =>
        obtain ⟨w1, hc, -, -, -, -, -, hw⟩ := capture_aborts_world lib cfg w err hen hsk herr
        rw [hc]
        simp [Captured.world, hw]

/-- C12, counterexample: with body capture on and a caller-supplied skipResponseBody that
holds on every request, the Logger filter still replaces the writer of the response by
the body writer. -/
theorem Logger_replaces_writer_of_exempt_response :
    exWorldBody.enableBody = true ∧
    (skipResponseBody exWorldBody.req exWorldBody.resp ||
      exConfigSkipResponse.skipResponseBody exWorldBody.req exWorldBody.resp) = true ∧
    exWorldBody.resp.ResponseWriter = .server ∧
    (Logger exLib exConfigSkipResponse exHandlerIdle exWorldBody).1.resp.ResponseWriter =
      .bodyWriter .server 0 ∧
    (skipResponseBody (Logger exLib exConfigSkipResponse exHandlerIdle exWorldBody).1.req
        (Logger exLib exConfigSkipResponse exHandlerIdle exWorldBody).1.resp ||
      exConfigSkipResponse.skipResponseBody
        (Logger exLib exConfigSkipResponse exHandlerIdle exWorldBody).1.req
        (Logger exLib exConfigSkipResponse exHandlerIdle exWorldBody).1.resp) = true := by
  decide

/-- C12, amended: for every request, the Logger filter replaces the writer of the
response by the body writer over the writer it found if and only if body capture is on
when the filter reads the toggle at entry, whatever the skipResponseBody predicates
return; with capture off the writer is left exactly as it was.  This is the writer on
either exit of the capture step, and the writer the filter leaves behind when the chain
does not replace it. -/
theorem Logger_writer_replaced (lib : Lib) (cfg : Config) (chain : Chain) (w : World) :
    (Logger.capture lib cfg (Builder.new w).2 (Builder.new w).1).world.resp.ResponseWriter =
      (if w.enableBody then .bodyWriter w.resp.ResponseWriter w.nextBuilder
        else w.resp.ResponseWriter) ∧
    ((∀ x, (chain x).1.resp.ResponseWriter = x.resp.ResponseWriter) →
      (Logger lib cfg chain w).1.resp.ResponseWriter =
        (if w.enableBody then .bodyWriter w.resp.ResponseWriter w.nextBuilder
          else w.resp.ResponseWriter)) ∧
    (w.enableBody = false →
      (Logger.capture lib cfg (Builder.new w).2 (Builder.new w).1).world.resp = w.resp) := by
  have hc := capture_writer lib cfg w
  refine ⟨hc, ?_, ?_⟩
  · intro hch
    cases hcap : Logger.capture lib cfg (Builder.new w).2 (Builder.new w).1 with
    | aborted w1 =>
      rw [Logger_of_aborted lib cfg chain w w1 hcap]
      rw [hcap] at hc
      exact hc
    | proceed w1 reqBody =>
      rw [Logger_of_proceed lib cfg chain w w1 reqBody hcap]
      rw [hcap] at hc
      rw [(deferred_frame cfg _ reqBody w1.clock w1.req.Path w1.req.RawQuery (chain w1).1).1,
        hch w1]
      exact hc
  · intro hen
    simp [Logger.capture, Builder.new, hen, Captured.world]

end gzap

/-! ## The access-logging filter: the order of the fields -/

namespace gzap

/-- C13, counterexample: for a request no route matched, the field list handed to the
sink has nine fields and starts with the no-op field `zap.Skip()`, not with the status. -/
theorem Logger_fields_without_route :
    exWorld.req.SelectedRoute = none ∧
    newConfig.skipLogging (exHandlerOk exWorld).1.req (exHandlerOk exWorld).1.resp = false ∧
    (entries (Logger exLib newConfig exHandlerOk exWorld).1.trace).map
        (fun e => keysOf e.Fields) =
      [["", "status", "method", "path", "route", "query", "ip", "user-agent", "latency"]] ∧
    (entries (Logger exLib newConfig exHandlerOk exWorld).1.trace).map
        (fun e => e.Fields.head?) = [some zap.Skip] := by
  decide

/-- C13, amended: for every non-skipped request that reaches the chain, the field list
the Logger filter hands to the sink is, in this order: the route title if a route
matched and the no-op field `zap.Skip()` in its place if none did; status, method, the
path taken before the chain, the route template (empty without a route), the query taken
before the chain, remote address, user-agent, latency; then requestBody and responseBody
if and only if body capture is on when the entry is built; then the result of every
custom field provider, one per provider, in the configured order; then the terminal
error of the response if and only if there is one. -/
theorem Logger_field_list (lib : Lib) (cfg : Config) (chain : Chain) (w : World)
    (hok : w.enableBody = false ∨ Logger.hasSkipRequestBody lib cfg w = true ∨
      w.req.Body.err = none) :
    ∃ w1 reqBody,
      Logger.capture lib cfg (Builder.new w).2 (Builder.new w).1 = .proceed w1 reqBody ∧
      (cfg.skipLogging (chain w1).1.req (chain w1).1.resp = false →
        ∃ level respBody,
          (Logger lib cfg chain w).1.trace = (chain w1).1.trace ++ [.poolGet,
            .log ⟨level, "logging",
              [(match (chain w1).1.req.SelectedRoute with
                  | some r => zap.String "title" r.Doc
                  | none => zap.Skip),
                zap.Int "status" (chain w1).1.resp.StatusCode,
                zap.String "method" (chain w1).1.req.Method,
                zap.String "path" w1.req.Path,
                zap.String "route" (match (chain w1).1.req.SelectedRoute with
                  | some r => r.Path
                  | none => ""),
                zap.String "query" w1.req.RawQuery,
                zap.String "ip" (chain w1).1.req.RemoteAddr,
                zap.String "user-agent" (Header.Get (chain w1).1.req.Header "User-Agent"),
                zap.Duration "latency" ((chain w1).1.clock - w1.clock)] ++
              (if (chain w1).1.enableBody then
                [zap.String "requestBody" reqBody, zap.String "responseBody" respBody]
                else []) ++
              cfg.customFields.map
                (fun fieldFunc => fieldFunc (chain w1).1.req (chain w1).1.resp) ++
              (match (chain w1).1.resp.Error with
                | some err => [zap.Error err]
                | none => [])⟩,
            .poolPut]) := by
  obtain ⟨w1, reqBody, h⟩ := capture_proceeds lib cfg w hok
  refine ⟨w1, reqBody, h, ?_⟩
  intro hs
  rw [Logger_of_proceed lib cfg chain w w1 reqBody h,
    deferred_entry cfg _ reqBody w1.clock w1.req.Path w1.req.RawQuery (chain w1).1 hs]
  refine ⟨if (chain w1).1.resp.Error.isSome then .ErrorLevel
      else cfg.useLoggerLevel (chain w1).1.req (chain w1).1.resp,
    (if !(skipResponseBody (chain w1).1.req (chain w1).1.resp ||
          cfg.skipResponseBody (chain w1).1.req (chain w1).1.resp) then
        if cfg.limit > 0 ∧
            (len ((chain w1).1.builders (Builder.new w).2) : Int) ≥ cfg.limit then
          "larger response body"
        else (chain w1).1.builders (Builder.new w).2
      else "skip response body"), ?_⟩
  cases hr : (chain w1).1.req.SelectedRoute <;> rfl

/-- A matched route, body capture on, one custom field and a terminal error: the keys
of the entry in order. -/
theorem Logger_field_list_witness :
    (∃ w1 reqBody,
      Logger.capture exLib exConfigApp
        (Builder.new { exWorldBody with
          req := { exRequest with SelectedRoute := some ⟨"/items", "List items"⟩ } }).2
        (Builder.new { exWorldBody with
          req := { exRequest with SelectedRoute := some ⟨"/items", "List items"⟩ } }).1 =
        .proceed w1 reqBody) ∧
    (entries (Logger exLib exConfigApp exHandlerError
        { exWorldBody with
          req := { exRequest with SelectedRoute := some ⟨"/items", "List items"⟩ } }).1.trace).map
        (fun e => keysOf e.Fields) =
      [["title", "status", "method", "path", "route", "query", "ip", "user-agent",
        "latency", "requestBody", "responseBody", "app", "error"]] := by
  obtain ⟨w1, reqBody, h, -⟩ := Logger_field_list exLib exConfigApp exHandlerError
    { exWorldBody with
      req := { exRequest with SelectedRoute := some ⟨"/items", "List items"⟩ } }
    (Or.inr (Or.inr rfl))
  exact ⟨⟨w1, reqBody, h⟩, by decide⟩

end gzap

/-! ## The panic-recovery filter: the order of the fields -/

namespace gzap

/-- C14, counterexample: built with stack capture and one custom field, Recovery emits
the stack trace after the custom field, not before it. -/
theorem Recovery_stack_after_custom_fields :
    (exHandlerPanic exWorld).2 = some (.str "panic") ∧
    brokenPipe (.str "panic") = false ∧
    (entries (Recovery exLib true exConfigApp exHandlerPanic exWorld).1.trace).map
        (fun e => keysOf e.Fields) = [["error", "request", "app", "stack"]] := by
  decide

/-- C14, amended: for every panic that is not classified as broken-pipe, the field list
the Recovery filter emits is, in this order: the panic value, the raw request dump, the
configured custom fields in their configured order, and last the captured stack trace
if and only if Recovery was constructed with stack = true. -/
theorem Recovery_field_list (lib : Lib) (stack : Bool) (cfg : Config) (chain : Chain)
    (w : World) (v : PanicValue) (hp : (chain w).2 = some v) (hb : brokenPipe v = false) :
    (Recovery lib stack cfg chain w).1.trace =
      (chain w).1.trace ++ [.poolGet,
        .log ⟨.ErrorLevel, "recovery from panic",
          [zap.Any "error" v,
            zap.ByteString "request" (lib.DumpRequest (chain w).1.req false)] ++
          cfg.customFields.map (fun field => field (chain w).1.req (chain w).1.resp) ++
          (if stack then [zap.ByteString "stack" lib.Stack] else [])⟩,
        .poolPut] := by
  rw [Recovery_of_panic lib stack cfg chain w v hp,
    (Recovery_deferred_defect lib (Recovery.config lib stack cfg) v (chain w).1 hb).2.1]
  cases stack <;> simp [Recovery.config]

/-- The plain panic under Recovery with stack capture and one custom field. -/
theorem Recovery_field_list_witness :
    (Recovery exLib true exConfigApp exHandlerPanic exWorld).1.trace =
      [.poolGet,
        .log ⟨.ErrorLevel, "recovery from panic",
          [zap.Any "error" (.str "panic"), zap.ByteString "request" "POST /items",
            zap.String "app" "demo", zap.ByteString "stack" "goroutine 1 [running]"]⟩,
        .poolPut] :=
  Recovery_field_list exLib true exConfigApp exHandlerPanic exWorld (.str "panic") rfl rfl

end gzap

/-! ## The access-logging filter: the body-capture toggle -/

namespace gzap

/-- C15, counterexample: two runs of the same request with the same handler, both
reading the toggle on at entry; in the first the toggle is still on when the entry is
built, in the second it has been switched off meanwhile.  The first entry has both body
fields, the second has none.  And a request that read the toggle off at entry, with the
toggle switched on meanwhile, logs an empty responseBody for the response "ok". -/
theorem Logger_toggle_read_twice :
    exWorldBody.enableBody = true ∧
    (entries (Logger exLib newConfig (withToggle true exHandlerOk) exWorldBody).1.trace).map
        (fun e => bodyFields e.Fields) =
      [[zap.String "requestBody" "hello", zap.String "responseBody" "ok"]] ∧
    (entries (Logger exLib newConfig (withToggle false exHandlerOk) exWorldBody).1.trace).map
        (fun e => bodyFields e.Fields) = [[]] ∧
    exWorld.enableBody = false ∧
    (entries (Logger exLib newConfig (withToggle true exHandlerOk) exWorld).1.trace).map
        (fun e => bodyFields e.Fields) =
      [[zap.String "requestBody" "skip request body", zap.String "responseBody" ""]] ∧
    (entries (Logger exLib newConfig (withToggle false exHandlerOk) exWorld).1.trace).map
        (fun e => bodyFields e.Fields) = [[]] := by
  decide

/-- C15, amended: the entry the Logger filter emits depends on the body-capture toggle
through two reads.  The read at entry fixes what is captured (the requestBody text and
what the duplicate buffer receives); the read made when the entry is built decides
whether the two body fields are in the entry.  So for a request that reaches the chain
and is not skipped there are a level, a requestBody text, a responseBody text and the
fields before and after them such that, whatever value t the toggle has when the entry
is built, the entry is those fields with the two body fields present exactly when t is
on. -/
theorem Logger_toggle_dependence (lib : Lib) (cfg : Config) (chain : Chain) (w : World)
    (hok : w.enableBody = false ∨ Logger.hasSkipRequestBody lib cfg w = true ∨
      w.req.Body.err = none) :
    ∃ w1 reqBody,
      Logger.capture lib cfg (Builder.new w).2 (Builder.new w).1 = .proceed w1 reqBody ∧
      (cfg.skipLogging (chain w1).1.req (chain w1).1.resp = false →
        ∃ level pre respBody post, ∀ t : Bool,
          (Logger lib cfg (withToggle t chain) w).1.trace =
            (chain w1).1.trace ++ [.poolGet,
              .log ⟨level, "logging",
                pre ++
                (if t then
                  [zap.String "requestBody" reqBody, zap.String "responseBody" respBody]
                  else []) ++
                post⟩,
              .poolPut]) := by
  obtain ⟨w1, reqBody, h⟩ := capture_proceeds lib cfg w hok
  refine ⟨w1, reqBody, h, ?_⟩
  intro hs
  refine ⟨if (chain w1).1.resp.Error.isSome then .ErrorLevel
      else cfg.useLoggerLevel (chain w1).1.req (chain w1).1.resp,
    [(match (chain w1).1.req.SelectedRoute with
        | some r => (r.Path, zap.String "title" r.Doc)
        | none => ("", zap.Skip)).2,
      zap.Int "status" (chain w1).1.resp.StatusCode,
      zap.String "method" (chain w1).1.req.Method,
      zap.String "path" w1.req.Path,
      zap.String "route" (match (chain w1).1.req.SelectedRoute with
        | some r => (r.Path, zap.String "title" r.Doc)
        | none => ("", zap.Skip)).1,
      zap.String "query" w1.req.RawQuery,
      zap.String "ip" (chain w1).1.req.RemoteAddr,
      zap.String "user-agent" (Header.Get (chain w1).1.req.Header "User-Agent"),
      zap.Duration "latency" ((chain w1).1.clock - w1.clock)],
    (if !(skipResponseBody (chain w1).1.req (chain w1).1.resp ||
          cfg.skipResponseBody (chain w1).1.req (chain w1).1.resp) then
        if cfg.limit > 0 ∧
            (len ((chain w1).1.builders (Builder.new w).2) : Int) ≥ cfg.limit then
          "larger response body"
        else (chain w1).1.builders (Builder.new w).2
      else "skip response body"),
    cfg.customFields.map (fun fieldFunc => fieldFunc (chain w1).1.req (chain w1).1.resp) ++
      (match (chain w1).1.resp.Error with
        | some err => [zap.Error err]
        | none => []), ?_⟩
  intro t
  have hst : cfg.skipLogging (withToggle t chain w1).1.req (withToggle t chain w1).1.resp =
      false := hs
  rw [Logger_of_proceed lib cfg (withToggle t chain) w w1 reqBody h,
    deferred_entry cfg _ reqBody w1.clock w1.req.Path w1.req.RawQuery
      (withToggle t chain w1).1 hst]
  simp only [withToggle, List.append_assoc]

/-- The handler that answers "ok", from a request that read the toggle on at entry. -/
theorem Logger_toggle_dependence_witness :
    ∃ w1 reqBody,
      Logger.capture exLib newConfig (Builder.new exWorldBody).2 (Builder.new exWorldBody).1 =
        .proceed w1 reqBody ∧
      (newConfig.skipLogging (exHandlerOk w1).1.req (exHandlerOk w1).1.resp = false →
        ∃ level pre respBody post, ∀ t : Bool,
          (Logger exLib newConfig (withToggle t exHandlerOk) exWorldBody).1.trace =
            (exHandlerOk w1).1.trace ++ [.poolGet,
              .log ⟨level, "logging",
                pre ++
                (if t then
                  [zap.String "requestBody" reqBody, zap.String "responseBody" respBody]
                  else []) ++
                post⟩,
              .poolPut]) :=
  Logger_toggle_dependence exLib newConfig exHandlerOk exWorldBody (Or.inr (Or.inr rfl))

end gzap

/-! ## The field pool on every exit path -/

namespace gzap

theorem Recovery_deferred_defect_pool (lib : Lib) (cfg : Config) (v : PanicValue) (w : World)
    (h : brokenPipe v = false) :
    (Recovery.deferred lib cfg v w).1.pool =
      w.pool ++ [.Get w.pool.length, .Put w.pool.length] := by
  have f := (WriteErrorString_more lib 500 "panic"
    (logger.Error "recovery from panic"
      ((pool.Get w).2.Fields ++
        [zap.Any "error" v, zap.ByteString "request" (lib.DumpRequest w.req false)] ++
        cfg.customFields.map (fun field => field (pool.Get w).1.req (pool.Get w).1.resp))
      (pool.Get w).1)).1
  simp only [Recovery.deferred, h, Bool.false_eq_true, if_false, pool.Put]
  simp only [f]
  simp [logger.Error, logger.Log, pool.Get]

theorem Recovery_deferred_brokenPipe_pool (lib : Lib) (cfg : Config) (e : GoError) (w : World)
    (h : brokenPipe (.error e) = true) :
    (Recovery.deferred lib cfg (.error e) w).1.pool = w.pool := by
  have f := (WriteError_more lib 500 e
    (logger.Error w.req.Path
      [zap.Any "error" (.error e), zap.ByteString "request" (lib.DumpRequest w.req false)]
      w)).1
  simp only [Recovery.deferred, h, if_true, PanicValue.asError]
  simp only [f]
  simp [logger.Error, logger.Log]

/-- C16: on every exit path of the two filters the calls to the pool are none, or one
Get followed by one Put of the buffer that Get handed out, with the entry handed to the
sink between the two.  Logger: none on the read failure and when logging is skipped;
Get, entry, Put otherwise.  Recovery: none when the chain returns normally and on a
broken-pipe panic (where only the entry is emitted); Get, entry, Put on a genuine
panic; none when the classification of the panic value dereferences a nil pointer. -/
theorem pool_calls_balanced (lib : Lib) (stack : Bool) (cfg : Config) (chain : Chain)
    (w : World) :
    (∀ err, w.enableBody = true → Logger.hasSkipRequestBody lib cfg w = false →
      w.req.Body.err = some err →
      (Logger lib cfg chain w).1.trace = w.trace ∧ (Logger lib cfg chain w).1.pool = w.pool) ∧
    ((w.enableBody = false ∨ Logger.hasSkipRequestBody lib cfg w = true ∨
        w.req.Body.err = none) →
      ∃ w1 reqBody,
        Logger.capture lib cfg (Builder.new w).2 (Builder.new w).1 = .proceed w1 reqBody ∧
        (cfg.skipLogging (chain w1).1.req (chain w1).1.resp = true →
          (Logger lib cfg chain w).1.trace = (chain w1).1.trace ∧
          (Logger lib cfg chain w).1.pool = (chain w1).1.pool) ∧
        (cfg.skipLogging (chain w1).1.req (chain w1).1.resp = false →
          ∃ fc e,
            (Logger lib cfg chain w).1.trace =
              (chain w1).1.trace ++ [.poolGet, .log e, .poolPut] ∧
            (Logger lib cfg chain w).1.pool = (chain w1).1.pool ++ [.Get fc, .Put fc])) ∧
    ((chain w).2 = none →
      (Recovery lib stack cfg chain w).1.trace = (chain w).1.trace ∧
      (Recovery lib stack cfg chain w).1.pool = (chain w).1.pool) ∧
    (∀ v, (chain w).2 = some v → brokenPipe v = true →
      ∃ e, (Recovery lib stack cfg chain w).1.trace = (chain w).1.trace ++ [.log e] ∧
        (Recovery lib stack cfg chain w).1.pool = (chain w).1.pool) ∧
    (∀ v, (chain w).2 = some v → brokenPipe v = false →
      ∃ fc e,
        (Recovery lib stack cfg chain w).1.trace =
          (chain w).1.trace ++ [.poolGet, .log e, .poolPut] ∧
        (Recovery lib stack cfg chain w).1.pool = (chain w).1.pool ++ [.Get fc, .Put fc]) ∧
    (∀ v, (chain w).2 = some v → brokenPipe v = none →
      (Recovery lib stack cfg chain w).1.trace = (chain w).1.trace ∧
      (Recovery lib stack cfg chain w).1.pool = (chain w).1.pool) := by
  refine ⟨?_, ?_, ?_, ?_, ?_, ?_⟩
  · intro err hen hskip herr
    obtain ⟨w1, hc, ht, hp, -⟩ := capture_aborts_world lib cfg w err hen hskip herr
    rw [Logger_of_aborted lib cfg chain w w1 hc]
    exact ⟨ht, hp⟩
  · intro hok
    obtain ⟨w1, reqBody, h⟩ := capture_proceeds lib cfg w hok
    refine ⟨w1, reqBody, h, ?_, ?_⟩
    · intro hs
      rw [Logger_of_proceed lib cfg chain w w1 reqBody h,
        deferred_skip cfg _ reqBody w1.clock w1.req.Path w1.req.RawQuery (chain w1).1 hs]
      exact ⟨rfl, rfl⟩
    · intro hs
      rw [Logger_of_proceed lib cfg chain w w1 reqBody h,
        deferred_entry cfg _ reqBody w1.clock w1.req.Path w1.req.RawQuery (chain w1).1 hs]
      exact ⟨_, _, rfl, rfl⟩
  · intro hp
    have hr : Recovery lib stack cfg chain w = ((chain w).1, none) := by
      simp only [Recovery, hp]
    rw [hr]
    exact ⟨rfl, rfl⟩
  · intro v hp hb
    rw [Recovery_of_panic lib stack cfg chain w v hp]
    obtain ⟨e, rfl⟩ := brokenPipe_is_error v hb
    exact ⟨_, (Recovery_deferred_brokenPipe lib _ e (chain w).1 hb).2.1,
      Recovery_deferred_brokenPipe_pool lib _ e (chain w).1 hb⟩
  · intro v hp hb
    rw [Recovery_of_panic lib stack cfg chain w v hp]
    exact ⟨_, _, (Recovery_deferred_defect lib _ v (chain w).1 hb).2.1,
      Recovery_deferred_defect_pool lib _ v (chain w).1 hb⟩
  · intro v hp hb
    rw [Recovery_of_panic lib stack cfg chain w v hp,
      Recovery_deferred_nil lib _ v (chain w).1 hb]
    exact ⟨rfl, rfl⟩

/-- The pool calls of the five exit paths on concrete requests. -/
theorem pool_calls_balanced_witness :
    (Logger exLib newConfig exHandlerOk exWorldReadFails).1.pool = [] ∧
    (Logger exLib (WithSkipLogging (some (fun _ _ => true)) newConfig) exHandlerOk
      exWorld).1.pool = [] ∧
    (Logger exLib newConfig exHandlerOk exWorld).1.pool = [.Get 0, .Put 0] ∧
    (Recovery exLib true newConfig exHandlerBrokenPipe exWorld).1.pool = [] ∧
    (Recovery exLib true newConfig exHandlerPanic exWorld).1.pool = [.Get 0, .Put 0] := by
  have t := pool_calls_balanced exLib true newConfig exHandlerOk exWorldReadFails
  have h := (t.1 (.errorString "unexpected EOF") rfl rfl rfl).2
  exact ⟨h, by decide, by decide, by decide, by decide⟩

/-! ## The levels of the entries -/

theorem useLoggerLevel_range (req : Request) (resp : Response) :
    useLoggerLevel req resp = .InfoLevel ∨ useLoggerLevel req resp = .WarnLevel ∨
      useLoggerLevel req resp = .ErrorLevel := by
  simp only [useLoggerLevel]
  split_ifs <;> simp

/-- C17, counterexample: with a caller-supplied level function that answers debug, the
Logger filter emits its entry at debug level. -/
theorem Logger_emits_debug_entry :
    (entries (Logger exLib exConfigDebug exHandlerOk exWorld).1.trace).map
      (fun e => e.Level) = [.DebugLevel] := by
  decide

/-- C17, amended: every entry the Recovery filter emits is at error level (one entry for
a panic whose classification completes, none when the classification itself
dereferences a nil pointer or when the chain does not panic); the entry the
Logger filter emits is at error level when the response carries a terminal error and
otherwise at the level the configured level-selection function returns, which is info,
warn or error for the default function and any zap level for a caller-supplied one. -/
theorem entry_levels (lib : Lib) (stack : Bool) (cfg : Config) (chain : Chain) (w : World) :
    ((w.enableBody = false ∨ Logger.hasSkipRequestBody lib cfg w = true ∨
        w.req.Body.err = none) →
      ∃ w1 reqBody,
        Logger.capture lib cfg (Builder.new w).2 (Builder.new w).1 = .proceed w1 reqBody ∧
        (cfg.skipLogging (chain w1).1.req (chain w1).1.resp = false →
          ∃ e, entries (Logger lib cfg chain w).1.trace = entries (chain w1).1.trace ++ [e] ∧
            e.Level = (if (chain w1).1.resp.Error.isSome then .ErrorLevel
              else cfg.useLoggerLevel (chain w1).1.req (chain w1).1.resp) ∧
            (cfg.useLoggerLevel = useLoggerLevel →
              e.Level = .InfoLevel ∨ e.Level = .WarnLevel ∨ e.Level = .ErrorLevel))) ∧
    (∀ v, (chain w).2 = some v → brokenPipe v ≠ none →
      ∃ e, entries (Recovery lib stack cfg chain w).1.trace = entries (chain w).1.trace ++ [e] ∧
        e.Level = .ErrorLevel) ∧
    (∀ v, (chain w).2 = some v → brokenPipe v = none →
      entries (Recovery lib stack cfg chain w).1.trace = entries (chain w).1.trace) ∧
    ((chain w).2 = none →
      entries (Recovery lib stack cfg chain w).1.trace = entries (chain w).1.trace) := by
  refine ⟨?_, ?_, ?_, ?_⟩
  · intro hok
    obtain ⟨w1, reqBody, h⟩ := capture_proceeds lib cfg w hok
    refine ⟨w1, reqBody, h, ?_⟩
    intro hs
    rw [Logger_of_proceed lib cfg chain w w1 reqBody h,
      deferred_entry cfg _ reqBody w1.clock w1.req.Path w1.req.RawQuery (chain w1).1 hs]
    simp only [entries_append, entries]
    refine ⟨_, rfl, rfl, ?_⟩
    intro hd
    simp only [hd]
    split_ifs
    · exact Or.inr (Or.inr rfl)
    · exact useLoggerLevel_range _ _
  · intro v hp hn
    rw [Recovery_of_panic lib stack cfg chain w v hp]
    cases hb : brokenPipe v with
    | none => exact absurd hb hn
    | some b =>
      cases b with
      | false =>
        rw [(Recovery_deferred_defect lib _ v (chain w).1 hb).2.1]
        simp only [entries_append, entries]
        exact ⟨_, rfl, rfl⟩
      | true =>
        obtain ⟨e, rfl⟩ := brokenPipe_is_error v hb
        rw [(Recovery_deferred_brokenPipe lib _ e (chain w).1 hb).2.1]
        simp only [entries_append, entries]
        exact ⟨_, rfl, rfl⟩
  · intro v hp hb
    rw [Recovery_of_panic lib stack cfg chain w v hp,
      Recovery_deferred_nil lib _ v (chain w).1 hb]
  · intro hp
    have hr : Recovery lib stack cfg chain w = ((chain w).1, none) := by
      simp only [Recovery, hp]
    rw [hr]

end gzap

/-! ## The access-logging filter: exempt request bodies -/

namespace gzap

theorem find_isSome_iff (params : List (String × String)) (k : String) :
    (params.find? (fun kv => kv.1 == k)).isSome = true ↔ ∃ v, (k, v) ∈ params := by
  induction params with
  | nil => simp
  | cons p ps ih =>
    simp only [List.find?_cons, List.mem_cons]
    cases hk : p.1 == k with
    | true =>
      have hp : p.1 = k := by simpa using hk
      simp only [Option.isSome_some, true_iff]
      exact ⟨p.2, Or.inl (by rw [← hp])⟩
    | false =>
      have hp : p.1 ≠ k := by simpa using hk
      simp only [ih]
      constructor
      · rintro ⟨v, hv⟩
        exact ⟨v, Or.inr hv⟩
      · rintro ⟨v, hv | hv⟩
        · exact absurd (by rw [← hv]) hp
        · exact ⟨v, hv⟩

theorem skipRequestBody_iff (lib : Lib) (req : Request) (resp : Response) :
    skipRequestBody lib req resp = true ↔
      ∃ d params, lib.ParseMediaType (Header.Get req.Header "Content-Type") = some (d, params) ∧
        (d = "multipart/form-data" ∨ d = "multipart/mixed") ∧ ∃ v, ("boundary", v) ∈ params := by
  simp only [skipRequestBody]
  cases hp : lib.ParseMediaType (Header.Get req.Header "Content-Type") with
  | none => simp
  | some r =>
    obtain ⟨d, params⟩ := r
    simp only [Option.some.injEq, Prod.mk.injEq]
    by_cases hd : d = "multipart/form-data" ∨ d = "multipart/mixed"
    · have hb : (d == "multipart/form-data" || d == "multipart/mixed") = true := by
        simpa using hd
      simp only [hb, Bool.not_true, Bool.false_eq_true, if_false, find_isSome_iff]
      constructor
      · intro h
        exact ⟨d, params, ⟨rfl, rfl⟩, hd, h⟩
      · rintro ⟨d1, p1, ⟨rfl, rfl⟩, -, h⟩
        exact h
    · have hb : (d == "multipart/form-data" || d == "multipart/mixed") = false := by
        simpa using hd
      simp only [hb, Bool.not_false, if_true, Bool.false_eq_true, false_iff]
      rintro ⟨d1, p1, ⟨rfl, rfl⟩, hd1, -⟩
      exact hd hd1

theorem capture_skipped (lib : Lib) (cfg : Config) (w : World) (hen : w.enableBody = true)
    (hskip : Logger.hasSkipRequestBody lib cfg w = true) :
    ∃ w1, Logger.capture lib cfg (Builder.new w).2 (Builder.new w).1 =
        .proceed w1 "skip request body" ∧ w1.req = w.req := by
  simp only [Logger.hasSkipRequestBody] at hskip
  simp only [Logger.capture, Builder.new, hen, if_true, hskip, Bool.not_true,
    Bool.false_eq_true, if_false]
  exact ⟨_, rfl, rfl⟩

/-- C18, counterexample: with body capture on and the default configuration, the body of
a `multipart/related` request is read and logged. -/
theorem Logger_reads_multipart_related :
    exWorldRelated.enableBody = true ∧
    exLibMime.ParseMediaType (Header.Get exWorldRelated.req.Header "Content-Type") =
      some ("multipart/related", [("boundary", "x")]) ∧
    (entries (Logger exLibMime newConfig exHandlerIdle exWorldRelated).1.trace).map
        (fun e => bodyFields e.Fields) =
      [[zap.String "requestBody" "hello", zap.String "responseBody" ""]] := by
  decide

/-- C18, amended: with body capture on, the built-in exemption holds exactly for a request
whose Content-Type parses to the media type multipart/form-data or multipart/mixed with
a boundary parameter.  For such a request the Logger filter neither reads nor replaces
the request body and goes on with the text "skip request body", whatever the
caller-supplied skipRequestBody returns.  For every other request (another multipart
type, no boundary, a Content-Type that does not parse, no multipart at all) the body is
skipped exactly when the caller-supplied predicate returns true, and is read otherwise. -/
theorem Logger_request_body_exemption (lib : Lib) (cfg : Config) (w : World)
    (hen : w.enableBody = true) :
    (skipRequestBody lib w.req
        { w.resp with ResponseWriter := .bodyWriter w.resp.ResponseWriter w.nextBuilder } = true ↔
      ∃ d params,
        lib.ParseMediaType (Header.Get w.req.Header "Content-Type") = some (d, params) ∧
        (d = "multipart/form-data" ∨ d = "multipart/mixed") ∧
        ∃ v, ("boundary", v) ∈ params) ∧
    (skipRequestBody lib w.req
        { w.resp with ResponseWriter := .bodyWriter w.resp.ResponseWriter w.nextBuilder } = true →
      ∃ w1, Logger.capture lib cfg (Builder.new w).2 (Builder.new w).1 =
          .proceed w1 "skip request body" ∧ w1.req = w.req) ∧
    (skipRequestBody lib w.req
        { w.resp with ResponseWriter := .bodyWriter w.resp.ResponseWriter w.nextBuilder } = false →
      (cfg.skipRequestBody w.req
          { w.resp with ResponseWriter := .bodyWriter w.resp.ResponseWriter w.nextBuilder } = true →
        ∃ w1, Logger.capture lib cfg (Builder.new w).2 (Builder.new w).1 =
            .proceed w1 "skip request body" ∧ w1.req = w.req) ∧
      (cfg.skipRequestBody w.req
          { w.resp with ResponseWriter := .bodyWriter w.resp.ResponseWriter w.nextBuilder } = false →
        (w.req.Body.err = none →
          ∃ w1 reqBody, Logger.capture lib cfg (Builder.new w).2 (Builder.new w).1 =
              .proceed w1 reqBody ∧ w1.req.Body = io.NopCloser w.req.Body.data ∧
            reqBody = (if cfg.limit > 0 ∧ (len w.req.Body.data : Int) ≥ cfg.limit then
              "larger request body" else w.req.Body.data)) ∧
        (∀ err, w.req.Body.err = some err →
          ∃ w1, Logger.capture lib cfg (Builder.new w).2 (Builder.new w).1 = .aborted w1))) := by
  refine ⟨skipRequestBody_iff lib w.req _, ?_, ?_⟩
  · intro hb
    exact capture_skipped lib cfg w hen (by simp [Logger.hasSkipRequestBody, hb])
  · intro hb
    refine ⟨?_, ?_⟩
    · intro hc
      exact capture_skipped lib cfg w hen (by simp [Logger.hasSkipRequestBody, hb, hc])
    · intro hc
      have hsk : Logger.hasSkipRequestBody lib cfg w = false := by
        simp [Logger.hasSkipRequestBody, hb, hc]
      refine ⟨?_, ?_⟩
      · intro herr
        exact ⟨_, _, capture_reads lib cfg w hen hsk herr, rfl, rfl⟩
      · intro err herr
        obtain ⟨w1, h1, -⟩ := capture_aborts lib cfg w err hen hsk herr
        exact ⟨w1, h1⟩

/-- A `multipart/form-data` request with a boundary and a caller-supplied predicate that
never skips: the body is left alone. -/
theorem Logger_request_body_exemption_witness :
    ∃ w1, Logger.capture exLibMime newConfig (Builder.new exWorldFormData).2
        (Builder.new exWorldFormData).1 = .proceed w1 "skip request body" ∧
      w1.req = exWorldFormData.req :=
  (Logger_request_body_exemption exLibMime newConfig exWorldFormData rfl).2.1 (by decide)

/-! ## The access-logging filter: the path and the query -/

theorem capture_req (lib : Lib) (cfg : Config) (w w1 : World) (reqBody : String)
    (h : Logger.capture lib cfg (Builder.new w).2 (Builder.new w).1 = .proceed w1 reqBody) :
    w1.req.Path = w.req.Path ∧ w1.req.RawQuery = w.req.RawQuery ∧ w1.clock = w.clock := by
  cases hen : w.enableBody with
  | false =>
    simp only [Logger.capture, Builder.new, hen, Bool.false_eq_true, if_false] at h
    injection h with h1 _
    subst h1
    exact ⟨rfl, rfl, rfl⟩
  | true =>
    cases hsk : Logger.hasSkipRequestBody lib cfg w with
    | true =>
      obtain ⟨w2, h2, hr⟩ := capture_skipped lib cfg w hen hsk
      rw [h2] at h
      injection h with h1 _
      subst h1
      simp only [Logger.hasSkipRequestBody] at hsk
      simp only [Logger.capture, Builder.new, hen, if_true, hsk, Bool.not_true,
        Bool.false_eq_true, if_false] at h2
      injection h2 with h3 _
      subst h3
      exact ⟨rfl, rfl, rfl⟩
    | false =>
      cases herr : w.req.Body.err with
      | none =>
        rw [capture_reads lib cfg w hen hsk herr] at h
        injection h with h1 _
        subst h1
        exact ⟨rfl, rfl, rfl⟩
      | some err =>
        obtain ⟨w2, h2, -⟩ := capture_aborts lib cfg w err hen hsk herr
        rw [h2] at h
        cases h

/-- C19: for every request that reaches the chain and is not skipped, and every
downstream stage, the "path" and "query" fields of the entry the Logger filter emits
are the URL path and the raw query the request had when the filter was entered, whatever
path and query the downstream stage leaves on the request. -/
theorem Logger_path_query_snapshot (lib : Lib) (cfg : Config) (chain : Chain) (w : World)
    (hok : w.enableBody = false ∨ Logger.hasSkipRequestBody lib cfg w = true ∨
      w.req.Body.err = none) :
    ∃ w1 reqBody,
      Logger.capture lib cfg (Builder.new w).2 (Builder.new w).1 = .proceed w1 reqBody ∧
      w1.req.Path = w.req.Path ∧ w1.req.RawQuery = w.req.RawQuery ∧
      (cfg.skipLogging (chain w1).1.req (chain w1).1.resp = false →
        ∃ e, (Logger lib cfg chain w).1.trace =
            (chain w1).1.trace ++ [.poolGet, .log e, .poolPut] ∧
          e.Fields[3]? = some (zap.String "path" w.req.Path) ∧
          e.Fields[5]? = some (zap.String "query" w.req.RawQuery)) := by
  obtain ⟨w1, reqBody, h⟩ := capture_proceeds lib cfg w hok
  obtain ⟨hp, hq, -⟩ := capture_req lib cfg w w1 reqBody h
  refine ⟨w1, reqBody, h, hp, hq, ?_⟩
  intro hs
  rw [Logger_of_proceed lib cfg chain w w1 reqBody h,
    deferred_entry cfg _ reqBody w1.clock w1.req.Path w1.req.RawQuery (chain w1).1 hs]
  refine ⟨_, rfl, ?_, ?_⟩
  · simp [hp]
  · simp [hq]

/-- A downstream stage that overwrites the path with "/internal" and empties the query:
the entry still carries "/items" and "x=1". -/
theorem Logger_path_query_snapshot_witness :
    (exHandlerRewrite exWorld).1.req.Path = "/internal" ∧
    ∃ w1 reqBody,
      Logger.capture exLib newConfig (Builder.new exWorld).2 (Builder.new exWorld).1 =
        .proceed w1 reqBody ∧
      ∃ e, (Logger exLib newConfig exHandlerRewrite exWorld).1.trace =
          (exHandlerRewrite w1).1.trace ++ [.poolGet, .log e, .poolPut] ∧
        e.Fields[3]? = some (zap.String "path" "/items") ∧
        e.Fields[5]? = some (zap.String "query" "x=1") := by
  refine ⟨rfl, ?_⟩
  obtain ⟨w1, reqBody, h, -, -, t⟩ :=
    Logger_path_query_snapshot exLib newConfig exHandlerRewrite exWorld (Or.inl rfl)
  obtain ⟨e, t1, t2, t3⟩ := t rfl
  exact ⟨w1, reqBody, h, e, t1, t2, t3⟩

end gzap

/-! ## The authj authorizer -/

namespace authj

open gzap (GoError PanicValue Request Response World Chain Lib WriterCall)

theorem WriteHeaderAndJson_frame (lib : Lib) (status : Int) (output : String) (w : World) :
    (WriteHeaderAndJson lib status output w).resp.statusCode = status ∧
    (WriteHeaderAndJson lib status output w).server =
      w.server ++ [.WriteHeader status, .Write output] := by
  simp only [WriteHeaderAndJson, gzap.Response.Write, gzap.Response.WriteHeader,
    gzap.WriteHeader_eq]
  have f := gzap.Write_frame lib w.resp.ResponseWriter output
    { w with resp := { w.resp with statusCode := status },
             server := w.server ++ [.WriteHeader status] }
  obtain ⟨f1, -, f3, -⟩ := f
  simp_all

/-- C20: for every request through the Authorizer filter, the chain is invoked if and
only if skipAuthentication returns true or the enforcer returns (true, no error) for the
subject, the URL path and the method.  When the predicate returns true the only call is
the chain, so the enforcer is not consulted.  Otherwise the enforcer is consulted once;
on an error the only other call is the error fallback, on a denial it is the forbidden
fallback, and in both the outcome is what the fallback leaves; on an allowance it is
the chain.  The default fallbacks answer 500 and 403. -/
theorem Authorizer_decides (e : Enforcer) (cfg : Config) (chain : Chain) (w : World) :
    (Call.ProcessFilter ∈ (Authorizer e cfg chain w).2 ↔
      (cfg.skipAuthentication w.req w.resp = true ∨
        e (cfg.subject w.req w.resp) w.req.Path w.req.Method = (true, none))) ∧
    (cfg.skipAuthentication w.req w.resp = true →
      Authorizer e cfg chain w = (chain w, [.ProcessFilter])) ∧
    (cfg.skipAuthentication w.req w.resp = false →
      (∀ allowed err,
        e (cfg.subject w.req w.resp) w.req.Path w.req.Method = (allowed, some err) →
        Authorizer e cfg chain w =
          ((cfg.errFallback err w, none),
            [.Enforce (cfg.subject w.req w.resp) w.req.Path w.req.Method,
              .errFallback err])) ∧
      (e (cfg.subject w.req w.resp) w.req.Path w.req.Method = (false, none) →
        Authorizer e cfg chain w =
          ((cfg.forbiddenFallback w, none),
            [.Enforce (cfg.subject w.req w.resp) w.req.Path w.req.Method,
              .forbiddenFallback])) ∧
      (e (cfg.subject w.req w.resp) w.req.Path w.req.Method = (true, none) →
        Authorizer e cfg chain w =
          (chain w,
            [.Enforce (cfg.subject w.req w.resp) w.req.Path w.req.Method,
              .ProcessFilter]))) ∧
    (∀ (lib : Lib) (json : Int → String → String) (err : GoError),
      ((defaultConfig lib json).errFallback err w).resp.StatusCode = 500 ∧
      ((defaultConfig lib json).errFallback err w).server =
        w.server ++ [.WriteHeader 500, .Write (json 500 "Permission validation errors occur!")] ∧
      ((defaultConfig lib json).forbiddenFallback w).resp.StatusCode = 403 ∧
      ((defaultConfig lib json).forbiddenFallback w).server =
        w.server ++ [.WriteHeader 403, .Write (json 403 "Permission denied!")]) := by
  refine ⟨?_, ?_, ?_, ?_⟩
  · cases hs : cfg.skipAuthentication w.req w.resp with
    | true => simp [Authorizer, hs]
    | false =>
      cases hr : e (cfg.subject w.req w.resp) w.req.Path w.req.Method with
      | mk allowed oerr =>
        cases oerr with
        | some err => simp [Authorizer, hs, hr]
        | none => cases allowed <;> simp [Authorizer, hs, hr]
  · intro hs
    simp [Authorizer, hs]
  · intro hs
    refine ⟨?_, ?_, ?_⟩
    · intro allowed err hr
      simp [Authorizer, hs, hr]
    · intro hr
      simp [Authorizer, hs, hr]
    · intro hr
      simp [Authorizer, hs, hr]
  · intro lib json err
    obtain ⟨a1, a2⟩ := WriteHeaderAndJson_frame lib 500
      (json 500 "Permission validation errors occur!") w
    obtain ⟨b1, b2⟩ := WriteHeaderAndJson_frame lib 403 (json 403 "Permission denied!") w
    refine ⟨?_, a2, ?_, b2⟩
    · simp only [defaultConfig, gzap.Response.StatusCode, a1]
      decide
    · simp only [defaultConfig, gzap.Response.StatusCode, b1]
      decide

/-- The requests of the tests: alice may GET but not POST the resource, the skip
predicate lets `GET /skip/authentication` through without the enforcer, and an empty
subject makes the enforcer fail. -/
theorem Authorizer_decides_witness :
    (Authorizer exEnforcer (defaultConfig gzap.exLib exJson) gzap.exHandlerOk
      (exWorldOf "alice" "GET")).2 =
      [.Enforce "alice" "/dataset1/resource1" "GET", .ProcessFilter] ∧
    (Authorizer exEnforcer (defaultConfig gzap.exLib exJson) gzap.exHandlerOk
      (exWorldOf "alice" "POST")).2 =
      [.Enforce "alice" "/dataset1/resource1" "POST", .forbiddenFallback] ∧
    (Authorizer exEnforcer (defaultConfig gzap.exLib exJson) gzap.exHandlerOk
      (exWorldOf "alice" "POST")).1.1.resp.StatusCode = 403 ∧
    (Authorizer exEnforcer (defaultConfig gzap.exLib exJson) gzap.exHandlerOk
      (exWorldOf "" "GET")).1.1.resp.StatusCode = 500 ∧
    (Authorizer exEnforcer
      (WithSkipAuthentication (some (fun _ _ => true)) (defaultConfig gzap.exLib exJson))
      gzap.exHandlerOk (exWorldOf "" "GET")).2 = [.ProcessFilter] := by
  have t := (Authorizer_decides exEnforcer (defaultConfig gzap.exLib exJson) gzap.exHandlerOk
    (exWorldOf "alice" "GET")).2.2.1 rfl
  have t1 := t.2.2 (by decide)
  refine ⟨?_, by decide, by decide, by decide, by decide⟩
  rw [t1]
  rfl

end authj

/-! ## The traceid filter -/

namespace traceid

open gzap (PanicValue Request Response World Chain Context)

theorem Header_Get_Set (canon : String → String) (h : List (String × String))
    (key value : String) :
    Header.Get canon (Header.Set canon h key value) key = value := by
  simp [Header.Get, Header.Set, gzap.Header.Get]

/-- C21: for every request through the TraceId filter, the chain runs on a request whose
context yields, through FromTraceId, the value the filter has set on the response header
of the configured name; that id is the value of the inbound request header when it is
not empty (the generator is then left alone) and the output of the generator otherwise;
FromTraceId (WithTraceId ctx id) is id for every context and id, and FromTraceId is the
empty string on a context that holds no trace id. -/
theorem TraceId_context_and_header {σ : Type} (canon : String → String) (cc : Config σ)
    (fc : Chain) (w : World) (g : σ) :
    (TraceId canon cc fc w g).1 = fc (TraceId.entered canon cc w g) ∧
    FromTraceId (TraceId.entered canon cc w g).req.Context =
      Header.Get canon (TraceId.entered canon cc w g).respHeader cc.traceIdHeader ∧
    (Header.Get canon w.req.Header cc.traceIdHeader ≠ "" →
      FromTraceId (TraceId.entered canon cc w g).req.Context =
        Header.Get canon w.req.Header cc.traceIdHeader ∧
      (TraceId canon cc fc w g).2 = g) ∧
    (Header.Get canon w.req.Header cc.traceIdHeader = "" →
      FromTraceId (TraceId.entered canon cc w g).req.Context = (cc.nextTraceId g).1 ∧
      (TraceId canon cc fc w g).2 = (cc.nextTraceId g).2) ∧
    (∀ (ctx : Context) (id : String), FromTraceId (WithTraceId ctx id) = id) ∧
    (∀ ctx : Context, ctx.traceId = none → FromTraceId ctx = "") := by
  refine ⟨rfl, ?_, ?_, ?_, ?_, ?_⟩
  · simp only [TraceId.entered, TraceId, Header_Get_Set]
    rfl
  · intro h
    simp [TraceId.entered, TraceId, h, FromTraceId, WithTraceId, gzap.Request.WithContext,
      gzap.Request.Context]
  · intro h
    simp [TraceId.entered, TraceId, h, FromTraceId, WithTraceId, gzap.Request.WithContext,
      gzap.Request.Context]
  · intro ctx id
    rfl
  · intro ctx h
    simp [FromTraceId, h]

/-- A request that carries the id "abc" keeps it and leaves the generator alone; a
request without the header gets the id the generator makes. -/
theorem TraceId_context_and_header_witness :
    FromTraceId (TraceId.entered (fun k => k) exConfig exWorldTraced 7).req.Context = "abc" ∧
    (TraceId (fun k => k) exConfig gzap.exHandlerIdle exWorldTraced 7).2 = 7 ∧
    (TraceId.entered (fun k => k) exConfig exWorldTraced 7).respHeader =
      [("X-Trace-Id", "abc")] ∧
    FromTraceId (TraceId.entered (fun k => k) exConfig gzap.exWorld 7).req.Context = "id-7" ∧
    (TraceId (fun k => k) exConfig gzap.exHandlerIdle gzap.exWorld 7).2 = 8 := by
  have t := TraceId_context_and_header (fun k => k) exConfig gzap.exHandlerIdle exWorldTraced 7
  have t3 := t.2.2.1 (by decide)
  refine ⟨?_, t3.2, by decide, by decide, by decide⟩
  rw [t3.1]
  decide

end traceid

/-! ## The gormzap logger -/

namespace gormzap

open gzap (Level Field Entry PoolCall FieldContainer)

/-- C22, the code at the failing input: a gorm logger at `logger.Info` over a zap logger
at info level passes the level test of `Info` and writes nothing, and over a zap logger
at debug level it writes its one entry at debug level; on the same inputs `Warn` and
`Error` write their one entry at warn and at error level. -/
theorem Info_logs_at_debug_level :
    (exLogger.LogLevel ≥ logger.Info ∧ (exZap .InfoLevel).Level.Enabled .InfoLevel = true) ∧
    (Logger.Info exSprintf exLogger () "rows" ["3"] (exZap .InfoLevel)).written = [] ∧
    (Logger.Info exSprintf exLogger () "rows" ["3"] (exZap .DebugLevel)).written =
      [⟨.DebugLevel, "rows 3", []⟩] ∧
    (Logger.Warn exSprintf exLogger () "rows" ["3"] (exZap .InfoLevel)).written =
      [⟨.WarnLevel, "rows 3", []⟩] ∧
    (Logger.Error exSprintf exLogger () "rows" ["3"] (exZap .InfoLevel)).written =
      [⟨.ErrorLevel, "rows 3", []⟩] := by
  decide

end gormzap

/-! ## The panic-recovery filter: the classification -/

namespace gzap

/-- C23, the code at the failing input: the nil pointer `(*net.OpError)(nil)` is an error
that is not a `*net.OpError` over an `*os.SyscallError`, so it is one of the other
values, and it takes neither branch: the classification ends in a nil dereference
before either is chosen, the filter emits no entry, the client gets neither the
header 500 nor the body "panic", and the field pool is not called. -/
theorem Recovery_nil_pointer_takes_no_branch :
    PanicValue.asError (.error .nilOpError) = some .nilOpError ∧
    (¬ ∃ op net src addr sc e,
      PanicValue.error .nilOpError = .error (.OpError op net src addr (.SyscallError sc e))) ∧
    brokenPipe (.error .nilOpError) ≠ some true ∧
    brokenPipe (.error .nilOpError) ≠ some false ∧
    entries (Recovery exLib true exConfigApp exHandlerNilOpError exWorldBody).1.trace = [] ∧
    (Recovery exLib true exConfigApp exHandlerNilOpError exWorldBody).1.server = [] ∧
    bodyOf (Recovery exLib true exConfigApp exHandlerNilOpError exWorldBody).1.server ≠
      "panic" ∧
    (Recovery exLib true exConfigApp exHandlerNilOpError exWorldBody).1.pool = [] := by
  refine ⟨rfl, ?_, by decide, by decide, by decide, by decide, by decide, by decide⟩
  rintro ⟨_, _, _, _, _, _, h⟩
  cases h

/-- The classification of a recovered panic value: it is broken-pipe if and only if the
value is a `*net.OpError` whose `Err` is an `*os.SyscallError` whose message,
lower-cased, contains "broken pipe" or "connection reset by peer", in whatever case the
message is written; a plain string, a number, any other error and such an error wrapped
inside another error are not; the classification fails exactly on the nil
`*net.OpError`; and a value classified as not broken-pipe takes the genuine-defect
branch: the response gets the header 500 and the fixed body "panic". -/
theorem brokenPipe_classification (v : PanicValue) :
    (brokenPipe v = true ↔
      ∃ op net src addr sc e,
        v = .error (.OpError op net src addr (.SyscallError sc e)) ∧
        (strings.Contains (strings.ToLower (GoError.SyscallError sc e).Error)
            "broken pipe" = true ∨
          strings.Contains (strings.ToLower (GoError.SyscallError sc e).Error)
            "connection reset by peer" = true)) ∧
    (brokenPipe v = none ↔ v = .error .nilOpError) ∧
    (∀ s, brokenPipe (.str s) = false) ∧
    (∀ n, brokenPipe (.int n) = false) ∧
    (∀ s, brokenPipe (.error (.errorString s)) = false) ∧
    (∀ sc e, brokenPipe (.error (.SyscallError sc e)) = false) ∧
    (∀ msg e, brokenPipe (.error (.wrapError msg e)) = false) ∧
    (∀ op net src addr s, brokenPipe (.error (.OpError op net src addr (.errorString s))) =
      false) ∧
    (∀ op net src addr msg e,
      brokenPipe (.error (.OpError op net src addr (.wrapError msg e))) = false) ∧
    (∀ op net src addr,
      brokenPipe (.error (.OpError op net src addr
        (.SyscallError "write" (.errorString "Broken Pipe")))) = true ∧
      brokenPipe (.error (.OpError op net src addr
        (.SyscallError "read" (.errorString "CONNECTION RESET BY PEER")))) = true ∧
      brokenPipe (.error (.OpError op net src addr
        (.SyscallError "write" (.errorString "BRO\u212AEN PIPE")))) = true ∧
      brokenPipe (.error (.OpError op net src addr
        (.SyscallError "write" (.errorString "broken pipeline")))) = true ∧
      brokenPipe (.error (.OpError op net src addr
        (.SyscallError "write" (.errorString "pipe broken")))) = false) ∧
    (∀ (lib : Lib) (stack : Bool) (cfg : Config) (chain : Chain) (w : World),
      (chain w).2 = some v → brokenPipe v = false →
      (Recovery lib stack cfg chain w).1.server =
        (chain w).1.server ++ [.WriteHeader 500, .Write "panic"] ∧
      ∃ e, (Recovery lib stack cfg chain w).1.trace =
        (chain w).1.trace ++ [.poolGet, .log e, .poolPut]) := by
  refine ⟨?_, ?_, fun _ => rfl, fun _ => rfl, fun _ => rfl, fun _ _ => rfl, fun _ _ => rfl,
    fun _ _ _ _ _ => rfl, fun _ _ _ _ _ _ => rfl, ?_, ?_⟩
  · cases v with
    | str s => simp [brokenPipe]
    | int n => simp [brokenPipe]
    | error err =>
      cases err with
      | errorString s => simp [brokenPipe]
      | nilOpError => simp [brokenPipe]
      | SyscallError sc e => simp [brokenPipe]
      | wrapError msg e => simp [brokenPipe]
      | OpError op net src addr inner =>
        cases inner with
        | errorString s => simp [brokenPipe]
        | nilOpError => simp [brokenPipe]
        | wrapError msg e => simp [brokenPipe]
        | OpError a b c d e => simp [brokenPipe]
        | SyscallError sc e =>
          simp only [brokenPipe, Option.some.injEq, Bool.or_eq_true]
          constructor
          · intro h
            exact ⟨op, net, src, addr, sc, e, rfl, h⟩
          · rintro ⟨_, _, _, _, _, _, h1, h2⟩
            injection h1 with h1
            injection h1 with _ _ _ _ h5
            injection h5 with h6 h7
            subst h6
            subst h7
            exact h2
  · cases v with
    | str s => simp [brokenPipe]
    | int n => simp [brokenPipe]
    | error err =>
      cases err with
      | errorString s => simp [brokenPipe]
      | nilOpError => simp [brokenPipe]
      | SyscallError sc e => simp [brokenPipe]
      | wrapError msg e => simp [brokenPipe]
      | OpError op net src addr inner =>
        cases inner with
        | errorString s => simp [brokenPipe]
        | nilOpError => simp [brokenPipe]
        | wrapError msg e => simp [brokenPipe]
        | OpError a b c d e => simp [brokenPipe]
        | SyscallError sc e => simp [brokenPipe]
  · intro op net src addr
    refine ⟨?_, ?_, ?_, ?_, ?_⟩ <;> simp only [brokenPipe] <;> decide
  · intro lib stack cfg chain w hp hb
    rw [Recovery_of_panic lib stack cfg chain w v hp]
    obtain ⟨-, d2, d3, -⟩ := Recovery_deferred_defect lib (Recovery.config lib stack cfg) v
      (chain w).1 hb
    exact ⟨d3, _, d2⟩

end gzap

/-! ## The gormzap logger: every logger -/

namespace gormzap

open gzap (Level Field Entry PoolCall FieldContainer)

theorem emitWith_written {Ctx : Type} (l : Logger Ctx) (gate lvl : Level) (ctx : Ctx)
    (msg : String) (s : Zap) :
    ∃ fields, (l.emitWith gate (log.at lvl) ctx msg s).written =
      s.written ++ (if s.Level.Enabled lvl then [⟨lvl, msg, fields⟩] else []) := by
  cases he : s.Level.Enabled lvl with
  | false =>
    refine ⟨[], ?_⟩
    simp only [Logger.emitWith, log.at, pool.Get, pool.Put, he]
    split_ifs <;> first | contradiction | simp
  | true =>
    simp only [Logger.emitWith, log.at, pool.Get, pool.Put, he, if_true]
    split_ifs <;> exact ⟨_, rfl⟩

theorem Info_written {Ctx : Type} (Sprintf : String → List String → String) (l : Logger Ctx)
    (ctx : Ctx) (msg : String) (args : List String) (s : Zap)
    (h1 : l.LogLevel ≥ logger.Info) (h2 : s.Level.Enabled .InfoLevel = true) :
    ∃ fields, (Logger.Info Sprintf l ctx msg args s).written =
      s.written ++
        (if s.Level.Enabled .DebugLevel then [⟨.DebugLevel, Sprintf msg args, fields⟩]
          else []) := by
  have hw : (log.Debug : String → List Field → Zap → Zap) = log.at .DebugLevel := rfl
  simp only [Logger.Info, h1, h2, and_self, if_true, hw]
  exact emitWith_written l .InfoLevel .DebugLevel ctx (Sprintf msg args) s

theorem Warn_written {Ctx : Type} (Sprintf : String → List String → String) (l : Logger Ctx)
    (ctx : Ctx) (msg : String) (args : List String) (s : Zap)
    (h1 : l.LogLevel ≥ logger.Warn) (h2 : s.Level.Enabled .WarnLevel = true) :
    ∃ fields, (Logger.Warn Sprintf l ctx msg args s).written =
      s.written ++ [⟨.WarnLevel, Sprintf msg args, fields⟩] := by
  have hw : (log.Warn : String → List Field → Zap → Zap) = log.at .WarnLevel := rfl
  simp only [Logger.Warn, h1, h2, and_self, if_true, hw]
  obtain ⟨fields, hf⟩ := emitWith_written l .WarnLevel .WarnLevel ctx (Sprintf msg args) s
  refine ⟨fields, ?_⟩
  rw [hf, h2]
  rfl

theorem Error_written {Ctx : Type} (Sprintf : String → List String → String) (l : Logger Ctx)
    (ctx : Ctx) (msg : String) (args : List String) (s : Zap)
    (h1 : l.LogLevel ≥ logger.Error) (h2 : s.Level.Enabled .ErrorLevel = true) :
    ∃ fields, (Logger.Error Sprintf l ctx msg args s).written =
      s.written ++ [⟨.ErrorLevel, Sprintf msg args, fields⟩] := by
  have hw : (log.Error : String → List Field → Zap → Zap) = log.at .ErrorLevel := rfl
  simp only [Logger.Error, h1, h2, and_self, if_true, hw]
  obtain ⟨fields, hf⟩ := emitWith_written l .ErrorLevel .ErrorLevel ctx (Sprintf msg args) s
  refine ⟨fields, ?_⟩
  rw [hf, h2]
  rfl

end gormzap
